import Mathlib

/-!
# Verification of the ai-city game-economy engine

A shallow embedding of the server-side game-economy engine
(`backend/app/routes/grid.py`, `backend/app/routes/marketplace.py`,
`backend/app/services.py`, `backend/app/game.py`, schema in
`backend/app/database.py`).

The SQLite tables of a single game are modelled by the structure `St`:
per-agent coin balances and done flags, per-cell tile rows, per-(agent,
color) paint-inventory rows (row presence matters, because an SQL
`UPDATE` on a missing row is a no-op, and `INSERT ... ON CONFLICT`
distinguishes the two cases) and the offers table.  Each HTTP route
handler that mutates state becomes a function `St → ... → Except Err St`;
an `HTTPException` raised by the handler aborts the request before
`commit`, and the per-request connection is closed without committing, so
the database is rolled back — hence an error result carries no state.
-/

namespace AiCity

/-- The 8-color palette of `models.COLORS` (keys of the dict, in order). -/
inductive Color where
  | indigo | teal | saffron | coral | vermillion | slate | plum | cream
  deriving DecidableEq, Repr

/-- `games.status`: 'waiting' / 'running' / 'finished'. -/
inductive Phase where
  | waiting | running | finished
  deriving DecidableEq, Repr

/-- `offers.offer_type`. -/
inductive OfferType where
  | sell_tile | buy_tile | sell_paint | buy_paint
  deriving DecidableEq, Repr

/-- `offers.status`: 'open' / 'accepted' / 'cancelled' (`open` is a Lean
keyword, hence `open_`). -/
inductive OfferStatus where
  | open_ | accepted | cancelled
  deriving DecidableEq, Repr

/-- A row of the `tiles` table (the `(x, y, game_id)` key is the index in
`St.tiles`; `color` is nullable). -/
structure Tile where
  owner_id : Nat
  color : Option Color
  deriving DecidableEq, Repr

/-- A row of the `offers` table (its `id` is the key in `St.offers`).
`tile_x`, `tile_y`, `paint_color`, `paint_quantity` are nullable columns,
filled according to the offer type at creation. -/
structure Offer where
  agent_id : Nat
  offer_type : OfferType
  status : OfferStatus
  tile_x : Option Int := none
  tile_y : Option Int := none
  paint_color : Option Color := none
  paint_quantity : Option Int := none
  price : Int
  accepted_by : Option Nat := none
  deriving DecidableEq, Repr

/-- `models.OfferRequest`: the pydantic request body for `POST
/marketplace`.  Pydantic's `price: int = Field(gt=0)` rejects any request
with a non-positive price before the route handler runs, so a value of
this type carries the proof `price_pos`. -/
structure OfferRequest where
  offer_type : OfferType
  tile_x : Option Int := none
  tile_y : Option Int := none
  paint_color : Option Color := none
  paint_quantity : Option Int := none
  price : Int
  price_pos : 0 < price

/-- The database state of the single active game.

* `status`, `grid_size` — the game's row in `games`;
* `agents` — the ids of the agents registered in this game (their rows'
  keys), `coins`/`is_done` the corresponding columns;
* `tiles` — the `tiles` table keyed by `(x, y)`;
* `paint` — the `paint_inventory` table keyed by `(agent_id, color)`;
  `none` means no row (rows are created lazily);
* `offers` — the `offers` table as `(id, row)` pairs in insertion order,
  `next_offer_id` the AUTOINCREMENT counter. -/
structure St where
  status : Phase
  grid_size : Nat
  agents : List Nat
  coins : Nat → Int
  is_done : Nat → Bool
  tiles : Int × Int → Option Tile
  paint : Nat → Color → Option Int
  offers : List (Nat × Offer)
  next_offer_id : Nat

/-- The `HTTPException`s the handlers raise, by their `detail` message.
`internalError` stands for the impossible branches that read paint fields
of a malformed (non-paint) offer in a paint settlement. -/
inductive Err where
  | gameNotRunning        -- "Game is not running"
  | tileNotFound          -- "Tile not found"
  | notOwned              -- "You don't own this tile"
  | tileLocked            -- "Tile is locked in a marketplace offer" / "... in your own offer"
  | insufficientPaint     -- "No <color> paint available" / "Insufficient <color> paint"
  | notPainted            -- "Tile is not painted"
  | validationError       -- 400s for missing/invalid offer fields
  | tileAlreadyListed     -- "Tile already listed for sale"
  | alreadyOwnTile        -- "You already own this tile"
  | insufficientCoins     -- "Insufficient coins"
  | offerNotFound         -- "Offer not found"
  | offerNotOpen          -- "Offer is no longer open" / "Offer is not open"
  | ownOffer              -- "Cannot accept your own offer"
  | notYourOffer          -- "Not your offer"
  | internalError
  deriving DecidableEq, Repr

/-! ## services.py -/

/-- `SELECT ... FROM offers WHERE id = ?` (primary-key lookup). -/
def findOffer : List (Nat × Offer) → Nat → Option Offer
  | [], _ => none
  | io :: rest, oid => if io.1 = oid then some io.2 else findOffer rest oid

/-- Coins locked: `SUM(price)` of the agent's own open
`buy_tile`/`buy_paint` offers (second query of `available_coins`). -/
def lockedCoins (s : St) (aid : Nat) : Int :=
  (s.offers.map (fun io =>
    if io.2.agent_id = aid ∧ io.2.status = OfferStatus.open_ ∧
        (io.2.offer_type = OfferType.buy_tile ∨ io.2.offer_type = OfferType.buy_paint)
    then io.2.price else 0)).sum

/-- `services.available_coins`: coins minus coins locked in open buy offers. -/
def available_coins (s : St) (aid : Nat) : Int :=
  s.coins aid - lockedCoins s aid

/-- Paint locked: `SUM(paint_quantity)` of the agent's own open
`sell_paint` offers for the color (second query of `available_paint`). -/
def lockedPaint (s : St) (aid : Nat) (c : Color) : Int :=
  (s.offers.map (fun io =>
    if io.2.agent_id = aid ∧ io.2.status = OfferStatus.open_ ∧
        io.2.offer_type = OfferType.sell_paint ∧ io.2.paint_color = some c
    then io.2.paint_quantity.getD 0 else 0)).sum

/-- `services.available_paint`: the paint-inventory row's quantity (0 when
the row is absent) minus paint locked in open `sell_paint` offers. -/
def available_paint (s : St) (aid : Nat) (c : Color) : Int :=
  (s.paint aid c).getD 0 - lockedPaint s aid c

/-- `services.check_tile_not_locked`: is there an open `sell_tile`/`buy_tile`
offer of this agent naming this tile? -/
def tileLockedBy (s : St) (aid : Nat) (x y : Int) : Bool :=
  s.offers.any (fun io => decide (
    io.2.status = OfferStatus.open_ ∧
    (io.2.offer_type = OfferType.sell_tile ∨ io.2.offer_type = OfferType.buy_tile) ∧
    io.2.tile_x = some x ∧ io.2.tile_y = some y ∧ io.2.agent_id = aid))

/-- The open-`sell_tile`-by-this-agent query used both by `post_offer`
("Tile already listed for sale") and by the `buy_tile` settlement ("Tile
is locked in your own offer"). -/
def sellTileListed (s : St) (aid : Nat) (x y : Int) : Bool :=
  s.offers.any (fun io => decide (
    io.2.status = OfferStatus.open_ ∧ io.2.offer_type = OfferType.sell_tile ∧
    io.2.tile_x = some x ∧ io.2.tile_y = some y ∧ io.2.agent_id = aid))

/-- `services.revoke_done`: `UPDATE agents SET is_done = FALSE` when the
agent was done. -/
def revoke_done (s : St) (aid : Nat) : St :=
  if s.is_done aid then
    { s with is_done := fun i => if i = aid then false else s.is_done i }
  else s

/-- `UPDATE agents SET coins = coins + d WHERE id = ?`. -/
def addCoins (s : St) (aid : Nat) (d : Int) : St :=
  { s with coins := fun i => if i = aid then s.coins i + d else s.coins i }

/-- `UPDATE tiles SET color = ? WHERE x = ? AND y = ?` (no-op when the row
is absent, as in SQL). -/
def setTileColor (s : St) (x y : Int) (c : Option Color) : St :=
  match s.tiles (x, y) with
  | some t =>
      { s with tiles := fun p => if p = (x, y) then some { t with color := c } else s.tiles p }
  | none => s

/-- `UPDATE tiles SET owner_id = ? WHERE x = ? AND y = ?`; a NULL
coordinate matches no row in SQL, and a missing row makes it a no-op. -/
def setTileOwner (s : St) (ox oy : Option Int) (newOwner : Nat) : St :=
  match ox, oy with
  | some x, some y =>
      match s.tiles (x, y) with
      | some t =>
          { s with tiles := fun p => if p = (x, y) then some { t with owner_id := newOwner } else s.tiles p }
      | none => s
  | _, _ => s

/-- `UPDATE paint_inventory SET quantity = quantity - q WHERE agent_id = ?
AND color = ?` — a no-op when the row is absent. -/
def subPaint (s : St) (aid : Nat) (c : Color) (q : Int) : St :=
  match s.paint aid c with
  | some cur =>
      { s with paint := fun i col => if i = aid ∧ col = c then some (cur - q) else s.paint i col }
  | none => s

/-- `INSERT INTO paint_inventory ... VALUES (?, ?, q) ON CONFLICT DO
UPDATE SET quantity = quantity + q`. -/
def addPaintUpsert (s : St) (aid : Nat) (c : Color) (q : Int) : St :=
  { s with paint := fun i col =>
      if i = aid ∧ col = c then some ((s.paint aid c).getD 0 + q) else s.paint i col }

/-- `UPDATE offers SET status = 'accepted', accepted_by = ? WHERE id = ?`. -/
def markAccepted (s : St) (oid : Nat) (aid : Nat) : St :=
  { s with offers := s.offers.map (fun io =>
      if io.1 = oid then (io.1, { io.2 with status := OfferStatus.accepted, accepted_by := some aid })
      else io) }

/-- `UPDATE offers SET status = 'cancelled' WHERE id = ?`. -/
def markCancelled (s : St) (oid : Nat) : St :=
  { s with offers := s.offers.map (fun io =>
      if io.1 = oid then (io.1, { io.2 with status := OfferStatus.cancelled })
      else io) }

/-! ## routes/grid.py -/

/-- `grid.paint_tile` (`POST /paint`): requires a running game, tile
ownership, the tile not locked in one of the agent's own open tile offers,
and a paint-inventory row for the requested color with raw `quantity ≥ 1`
(the handler reads the row directly; it does not call `available_paint`).
If the tile already has a color, one unit of that color is refunded first.
On success the tile gets the color, one unit is deducted, and the agent's
done flag is revoked. -/
def paint_tile (s : St) (aid : Nat) (x y : Int) (c : Color) : Except Err St :=
  if s.status ≠ Phase.running then .error .gameNotRunning else
  match s.tiles (x, y) with
  | none => .error .tileNotFound
  | some t =>
    if t.owner_id ≠ aid then .error .notOwned else
    if tileLockedBy s aid x y then .error .tileLocked else
    match s.paint aid c with
    | none => .error .insufficientPaint
    | some qty =>
      if qty < 1 then .error .insufficientPaint else
      let s1 := match t.color with
        | some old => addPaintUpsert s aid old 1
        | none => s
      let s2 := setTileColor s1 x y (some c)
      let s3 := subPaint s2 aid c 1
      .ok (revoke_done s3 aid)

/-- `grid.unpaint_tile` (`POST /unpaint`): requires a running game,
ownership, the tile currently painted (checked before the lock check), and
the tile not locked.  Refunds one unit of the tile's color and clears it;
revokes the agent's done flag. -/
def unpaint_tile (s : St) (aid : Nat) (x y : Int) : Except Err St :=
  if s.status ≠ Phase.running then .error .gameNotRunning else
  match s.tiles (x, y) with
  | none => .error .tileNotFound
  | some t =>
    if t.owner_id ≠ aid then .error .notOwned else
    match t.color with
    | none => .error .notPainted
    | some old =>
      if tileLockedBy s aid x y then .error .tileLocked else
      let s1 := addPaintUpsert s aid old 1
      let s2 := setTileColor s1 x y none
      .ok (revoke_done s2 aid)

/-! ## routes/marketplace.py -/

/-- `INSERT INTO offers ...` followed by `revoke_done`: the offer is
stored with all request fields as-is, status 'open'. -/
def insertOffer (s : St) (aid : Nat) (req : OfferRequest) : St :=
  let o : Offer :=
    { agent_id := aid, offer_type := req.offer_type, status := OfferStatus.open_,
      tile_x := req.tile_x, tile_y := req.tile_y,
      paint_color := req.paint_color, paint_quantity := req.paint_quantity,
      price := req.price, accepted_by := none }
  revoke_done
    { s with offers := s.offers ++ [(s.next_offer_id, o)],
             next_offer_id := s.next_offer_id + 1 } aid

/-- `marketplace.post_offer` (`POST /marketplace`): requires a running
game, then type-specific validation — `sell_tile`: coordinates given,
poster owns the tile, no open `sell_tile` of the poster on it already;
`buy_tile`: coordinates given, tile exists, owned by someone else,
available coins ≥ price; `sell_paint`: color and quantity given (0 is
falsy in Python), quantity ≥ 1, available paint ≥ quantity; `buy_paint`:
color and quantity given, quantity ≥ 1, available coins ≥ price. -/
def post_offer (s : St) (aid : Nat) (req : OfferRequest) : Except Err St :=
  if s.status ≠ Phase.running then .error .gameNotRunning else
  match req.offer_type with
  | .sell_tile =>
    match req.tile_x, req.tile_y with
    | some x, some y =>
      match s.tiles (x, y) with
      | none => .error .notOwned
      | some t =>
        if t.owner_id ≠ aid then .error .notOwned else
        if sellTileListed s aid x y then .error .tileAlreadyListed else
        .ok (insertOffer s aid req)
    | _, _ => .error .validationError
  | .buy_tile =>
    match req.tile_x, req.tile_y with
    | some x, some y =>
      match s.tiles (x, y) with
      | none => .error .tileNotFound
      | some t =>
        if t.owner_id = aid then .error .alreadyOwnTile else
        if available_coins s aid < req.price then .error .insufficientCoins else
        .ok (insertOffer s aid req)
    | _, _ => .error .validationError
  | .sell_paint =>
    match req.paint_color, req.paint_quantity with
    | some c, some q =>
      if q < 1 then .error .validationError else
      if available_paint s aid c < q then .error .insufficientPaint else
      .ok (insertOffer s aid req)
    | _, _ => .error .validationError
  | .buy_paint =>
    match req.paint_color, req.paint_quantity with
    | some _, some q =>
      if q < 1 then .error .validationError else
      if available_coins s aid < req.price then .error .insufficientCoins else
      .ok (insertOffer s aid req)
    | _, _ => .error .validationError

/-- The type-dispatched trade execution inside `accept_offer` (the block
between the own-offer check and the `UPDATE offers` statement). -/
def settle (s : St) (aid : Nat) (o : Offer) : Except Err St :=
  match o.offer_type with
  | .sell_tile =>
    if available_coins s aid < o.price then .error .insufficientCoins else
    let s1 := addCoins s aid (-o.price)
    let s2 := addCoins s1 o.agent_id o.price
    .ok (setTileOwner s2 o.tile_x o.tile_y aid)
  | .buy_tile =>
    match o.tile_x, o.tile_y with
    | some x, some y =>
      match s.tiles (x, y) with
      | none => .error .notOwned
      | some t =>
        if t.owner_id ≠ aid then .error .notOwned else
        if sellTileListed s aid x y then .error .tileLocked else
        let s1 := addCoins s o.agent_id (-o.price)
        let s2 := addCoins s1 aid o.price
        .ok (setTileOwner s2 (some x) (some y) o.agent_id)
    | _, _ => .error .notOwned
  | .sell_paint =>
    if available_coins s aid < o.price then .error .insufficientCoins else
    match o.paint_color, o.paint_quantity with
    | some c, some q =>
      let s1 := addCoins s aid (-o.price)
      let s2 := addCoins s1 o.agent_id o.price
      let s3 := subPaint s2 o.agent_id c q
      .ok (addPaintUpsert s3 aid c q)
    | _, _ => .error .internalError
  | .buy_paint =>
    match o.paint_color, o.paint_quantity with
    | some c, some q =>
      if available_paint s aid c < q then .error .insufficientPaint else
      let s1 := addCoins s o.agent_id (-o.price)
      let s2 := addCoins s1 aid o.price
      let s3 := subPaint s2 aid c q
      .ok (addPaintUpsert s3 o.agent_id c q)
    | _, _ => .error .internalError

/-- `marketplace.accept_offer` (`POST /marketplace/{id}/accept`): requires
a running game; the offer must exist, be open, and not be the accepter's
own; then the trade executes, the offer is marked accepted with
`accepted_by`, and the *accepter's* done flag is revoked. -/
def accept_offer (s : St) (aid : Nat) (oid : Nat) : Except Err St :=
  if s.status ≠ Phase.running then .error .gameNotRunning else
  match findOffer s.offers oid with
  | none => .error .offerNotFound
  | some o =>
    if o.status ≠ OfferStatus.open_ then .error .offerNotOpen else
    if o.agent_id = aid then .error .ownOffer else
    match settle s aid o with
    | .error e => .error e
    | .ok s1 => .ok (revoke_done (markAccepted s1 oid aid) aid)

/-- `marketplace.cancel_offer` (`DELETE /marketplace/{id}`): the offer
must exist, be the requester's own, and be open.  Note: this handler calls
neither `require_running_game` nor `revoke_done`. -/
def cancel_offer (s : St) (aid : Nat) (oid : Nat) : Except Err St :=
  match findOffer s.offers oid with
  | none => .error .offerNotFound
  | some o =>
    if o.agent_id ≠ aid then .error .notYourOffer else
    if o.status ≠ OfferStatus.open_ then .error .offerNotOpen else
    .ok (markCancelled s oid)

/-- One mutating economy operation (the five state-changing endpoints). -/
inductive Op where
  | paint (aid : Nat) (x y : Int) (c : Color)
  | unpaint (aid : Nat) (x y : Int)
  | post (aid : Nat) (req : OfferRequest)
  | accept (aid : Nat) (oid : Nat)
  | cancel (aid : Nat) (oid : Nat)

/-- Apply one operation to the state. -/
def applyOp (s : St) : Op → Except Err St
  | .paint aid x y c => paint_tile s aid x y c
  | .unpaint aid x y => unpaint_tile s aid x y
  | .post aid req => post_offer s aid req
  | .accept aid oid => accept_offer s aid oid
  | .cancel aid oid => cancel_offer s aid oid

/-- Run a sequence of `accept_offer` settlements (pairs of accepting agent
and offer id), stopping at the first failure. -/
def runTrades (s : St) : List (Nat × Nat) → Except Err St
  | [] => .ok s
  | t :: rest =>
    match accept_offer s t.1 t.2 with
    | .error e => .error e
    | .ok s' => runTrades s' rest

/-- Total coins over the agents of the game (`SUM(coins)`). -/
def totalCoins (s : St) : Int :=
  (s.agents.map s.coins).sum

/-! ## game.py — initial allocation

`distribute_tiles` computes `round((x1 - x0) * len(left) / len(agents))`
with Python's `round`, which rounds half to even; its arguments here are
small non-negative integers, modelled exactly on rationals `num / den`. -/

/-- Python's `round` of the non-negative rational `num / den`
(round-half-to-even). -/
def pyRound (num den : Nat) : Nat :=
  if den = 0 then 0 else
  let q := num / den
  let r := num % den
  if 2 * r < den then q
  else if den < 2 * r then q + 1
  else if q % 2 = 0 then q else q + 1

/-- The base case of `_assign`: `for x in range(x0, x1): for y in
range(y0, y1): assignments.append((x, y, agents[0]))`. -/
def cellsFor (a : Nat) (x0 y0 x1 y1 : Nat) : List (Nat × Nat × Nat) :=
  (List.range' x0 (x1 - x0)).flatMap
    (fun x => (List.range' y0 (y1 - y0)).map (fun y => (x, y, a)))

/-- `game._assign`: recursively split the rectangle `[x0, x1) × [y0, y1)`
along its longer axis, proportionally to the halves of the agent list. -/
def distAssign : List Nat → Nat → Nat → Nat → Nat → List (Nat × Nat × Nat)
  | [], _, _, _, _ => []
  | [a], x0, y0, x1, y1 => cellsFor a x0 y0 x1 y1
  | a :: b :: rest, x0, y0, x1, y1 =>
    let agents := a :: b :: rest
    let mid := agents.length / 2
    let left := agents.take mid
    let right := agents.drop mid
    if x1 - x0 ≥ y1 - y0 then
      let split := x0 + pyRound ((x1 - x0) * left.length) agents.length
      distAssign left x0 y0 split y1 ++ distAssign right split y0 x1 y1
    else
      let split := y0 + pyRound ((y1 - y0) * left.length) agents.length
      distAssign left x0 y0 x1 split ++ distAssign right x0 split x1 y1
termination_by agents _ _ _ _ => agents.length
decreasing_by
  all_goals simp_all [List.length_take, List.length_drop]
  all_goals omega

/-- `game.distribute_tiles`: assign every cell of the `N × N` grid to one
agent, as `(x, y, owner_id)` triples. -/
def distribute_tiles (grid_size : Nat) (agent_ids : List Nat) : List (Nat × Nat × Nat) :=
  distAssign agent_ids 0 0 grid_size grid_size

/-- `models.COLOR_NAMES`: the palette, in dict order. -/
def COLOR_NAMES : List Color :=
  [.indigo, .teal, .saffron, .coral, .vermillion, .slate, .plum, .cream]

/-- `math.ceil(a / b)` for non-negative integers. -/
def ceilDiv (a b : Nat) : Nat := (a + b - 1) / b

/-- The first pass of `distribute_paint`:
`for i, color in enumerate(shuffled): agent_colors[agent_ids[i % n]].add(color)`.
Read per agent, the set built by the loop is exactly the colors whose
index maps round-robin to this agent (all `shuffled` entries are distinct,
so the set-add never collapses elements, and they are added in index
order). -/
def firstPass (agent_ids : List Nat) (shuffled : List Color) (aid : Nat) : List Color :=
  (shuffled.enum.filter
    (fun ic => agent_ids.getD (ic.1 % agent_ids.length) 0 = aid)).map (·.2)

/-- The top-up loop of `distribute_paint`:
`while len(agent_colors[aid]) < 4: pick = random.choice(available); add;
remove`.  `random.choice` is modelled by the next index from `picks`
(taken modulo the length of `available`); the fuel bounds the iteration
count (4 suffices: each round adds one color). -/
def topUp (cur avail : List Color) (picks : List Nat) : Nat → List Color
  | 0 => cur
  | fuel + 1 =>
    if cur.length < 4 then
      match avail with
      | [] => cur
      | c0 :: cs =>
        let pick := (c0 :: cs).getD (picks.headD 0 % (c0 :: cs).length) Color.indigo
        topUp (cur ++ [pick]) ((c0 :: cs).erase pick) picks.tail fuel
    else cur

/-- The finished color set of one agent: first pass, then top up to 4
using the colors it does not already hold (in `COLOR_NAMES` order, as the
source's list comprehension). -/
def agentColors (agent_ids : List Nat) (shuffled : List Color) (picks : Nat → List Nat)
    (aid : Nat) : List Color :=
  let cur := firstPass agent_ids shuffled aid
  topUp cur (COLOR_NAMES.filter (fun c => ¬ c ∈ cur)) (picks aid) 4

/-- `game.distribute_paint`: each agent ends with 4 colors, each at
quantity `ceil(grid_size² / (n·4))`; `shuffled` is the shuffled palette
and `picks` the random choices of the top-up loop, both supplied as
explicit randomness sources. -/
def distribute_paint (agent_ids : List Nat) (grid_size : Nat)
    (shuffled : List Color) (picks : Nat → List Nat) : List (Nat × Color × Nat) :=
  let n := agent_ids.length
  let quantity := ceilDiv (grid_size ^ 2) (n * 4)
  agent_ids.flatMap (fun aid =>
    (agentColors agent_ids shuffled picks aid).map (fun c => (aid, c, quantity)))

/-! ## Frame and projection lemmas for the state helpers -/

@[simp] lemma revoke_done_offers (s : St) (a : Nat) : (revoke_done s a).offers = s.offers := by
  unfold revoke_done; split <;> rfl

@[simp] lemma revoke_done_agents (s : St) (a : Nat) : (revoke_done s a).agents = s.agents := by
  unfold revoke_done; split <;> rfl

@[simp] lemma revoke_done_coins (s : St) (a : Nat) : (revoke_done s a).coins = s.coins := by
  unfold revoke_done; split <;> rfl

@[simp] lemma revoke_done_status (s : St) (a : Nat) : (revoke_done s a).status = s.status := by
  unfold revoke_done; split <;> rfl

@[simp] lemma revoke_done_paint (s : St) (a : Nat) : (revoke_done s a).paint = s.paint := by
  unfold revoke_done; split <;> rfl

@[simp] lemma revoke_done_tiles (s : St) (a : Nat) : (revoke_done s a).tiles = s.tiles := by
  unfold revoke_done; split <;> rfl

@[simp] lemma revoke_done_isDone_self (s : St) (a : Nat) :
    (revoke_done s a).is_done a = false := by
  unfold revoke_done; split <;> simp_all

@[simp] lemma revoke_done_isDone_ne (s : St) (a i : Nat) (h : i ≠ a) :
    (revoke_done s a).is_done i = s.is_done i := by
  unfold revoke_done; split <;> simp [h]

@[simp] lemma addCoins_offers (s : St) (a : Nat) (d : Int) : (addCoins s a d).offers = s.offers := rfl

@[simp] lemma addCoins_agents (s : St) (a : Nat) (d : Int) : (addCoins s a d).agents = s.agents := rfl

@[simp] lemma addCoins_is_done (s : St) (a : Nat) (d : Int) : (addCoins s a d).is_done = s.is_done := rfl

@[simp] lemma addCoins_status (s : St) (a : Nat) (d : Int) : (addCoins s a d).status = s.status := rfl

@[simp] lemma addCoins_paint (s : St) (a : Nat) (d : Int) : (addCoins s a d).paint = s.paint := rfl

lemma addCoins_coins (s : St) (a : Nat) (d : Int) (i : Nat) :
    (addCoins s a d).coins i = if i = a then s.coins i + d else s.coins i := rfl

@[simp] lemma setTileColor_offers (s : St) (x y : Int) (c : Option Color) :
    (setTileColor s x y c).offers = s.offers := by
  unfold setTileColor; split <;> rfl

@[simp] lemma setTileColor_agents (s : St) (x y : Int) (c : Option Color) :
    (setTileColor s x y c).agents = s.agents := by
  unfold setTileColor; split <;> rfl

@[simp] lemma setTileColor_coins (s : St) (x y : Int) (c : Option Color) :
    (setTileColor s x y c).coins = s.coins := by
  unfold setTileColor; split <;> rfl

@[simp] lemma setTileColor_is_done (s : St) (x y : Int) (c : Option Color) :
    (setTileColor s x y c).is_done = s.is_done := by
  unfold setTileColor; split <;> rfl

@[simp] lemma setTileColor_status (s : St) (x y : Int) (c : Option Color) :
    (setTileColor s x y c).status = s.status := by
  unfold setTileColor; split <;> rfl

@[simp] lemma setTileColor_paint (s : St) (x y : Int) (c : Option Color) :
    (setTileColor s x y c).paint = s.paint := by
  unfold setTileColor; split <;> rfl

@[simp] lemma setTileOwner_offers (s : St) (ox oy : Option Int) (w : Nat) :
    (setTileOwner s ox oy w).offers = s.offers := by
  unfold setTileOwner; repeat' split
  all_goals rfl

@[simp] lemma setTileOwner_agents (s : St) (ox oy : Option Int) (w : Nat) :
    (setTileOwner s ox oy w).agents = s.agents := by
  unfold setTileOwner; repeat' split
  all_goals rfl

@[simp] lemma setTileOwner_coins (s : St) (ox oy : Option Int) (w : Nat) :
    (setTileOwner s ox oy w).coins = s.coins := by
  unfold setTileOwner; repeat' split
  all_goals rfl

@[simp] lemma setTileOwner_is_done (s : St) (ox oy : Option Int) (w : Nat) :
    (setTileOwner s ox oy w).is_done = s.is_done := by
  unfold setTileOwner; repeat' split
  all_goals rfl

@[simp] lemma setTileOwner_status (s : St) (ox oy : Option Int) (w : Nat) :
    (setTileOwner s ox oy w).status = s.status := by
  unfold setTileOwner; repeat' split
  all_goals rfl

@[simp] lemma setTileOwner_paint (s : St) (ox oy : Option Int) (w : Nat) :
    (setTileOwner s ox oy w).paint = s.paint := by
  unfold setTileOwner; repeat' split
  all_goals rfl

@[simp] lemma subPaint_offers (s : St) (a : Nat) (c : Color) (q : Int) :
    (subPaint s a c q).offers = s.offers := by
  unfold subPaint; split <;> rfl

@[simp] lemma subPaint_agents (s : St) (a : Nat) (c : Color) (q : Int) :
    (subPaint s a c q).agents = s.agents := by
  unfold subPaint; split <;> rfl

@[simp] lemma subPaint_coins (s : St) (a : Nat) (c : Color) (q : Int) :
    (subPaint s a c q).coins = s.coins := by
  unfold subPaint; split <;> rfl

@[simp] lemma subPaint_is_done (s : St) (a : Nat) (c : Color) (q : Int) :
    (subPaint s a c q).is_done = s.is_done := by
  unfold subPaint; split <;> rfl

@[simp] lemma subPaint_status (s : St) (a : Nat) (c : Color) (q : Int) :
    (subPaint s a c q).status = s.status := by
  unfold subPaint; split <;> rfl

@[simp] lemma addPaintUpsert_offers (s : St) (a : Nat) (c : Color) (q : Int) :
    (addPaintUpsert s a c q).offers = s.offers := rfl

@[simp] lemma addPaintUpsert_agents (s : St) (a : Nat) (c : Color) (q : Int) :
    (addPaintUpsert s a c q).agents = s.agents := rfl

@[simp] lemma addPaintUpsert_coins (s : St) (a : Nat) (c : Color) (q : Int) :
    (addPaintUpsert s a c q).coins = s.coins := rfl

@[simp] lemma addPaintUpsert_is_done (s : St) (a : Nat) (c : Color) (q : Int) :
    (addPaintUpsert s a c q).is_done = s.is_done := rfl

@[simp] lemma addPaintUpsert_status (s : St) (a : Nat) (c : Color) (q : Int) :
    (addPaintUpsert s a c q).status = s.status := rfl

@[simp] lemma markAccepted_agents (s : St) (oid a : Nat) : (markAccepted s oid a).agents = s.agents := rfl

@[simp] lemma markAccepted_coins (s : St) (oid a : Nat) : (markAccepted s oid a).coins = s.coins := rfl

@[simp] lemma markAccepted_is_done (s : St) (oid a : Nat) : (markAccepted s oid a).is_done = s.is_done := rfl

@[simp] lemma markAccepted_status (s : St) (oid a : Nat) : (markAccepted s oid a).status = s.status := rfl

@[simp] lemma markCancelled_agents (s : St) (oid : Nat) : (markCancelled s oid).agents = s.agents := rfl

@[simp] lemma markCancelled_coins (s : St) (oid : Nat) : (markCancelled s oid).coins = s.coins := rfl

@[simp] lemma markCancelled_is_done (s : St) (oid : Nat) : (markCancelled s oid).is_done = s.is_done := rfl

@[simp] lemma markCancelled_status (s : St) (oid : Nat) : (markCancelled s oid).status = s.status := rfl

/-! ## findOffer lemmas -/

lemma findOffer_map_update (l : List (Nat × Offer)) (oid : Nat) (f : Offer → Offer) :
    findOffer (l.map (fun io => if io.1 = oid then (io.1, f io.2) else io)) oid =
      (findOffer l oid).map f := by
  induction l with
  | nil => rfl
  | cons io rest ih =>
    by_cases h : io.1 = oid
    · simp [findOffer, h, ih]
    · simp [findOffer, h, ih]

lemma findOffer_map_ne {oid' oid : Nat} (l : List (Nat × Offer)) (f : Offer → Offer)
    (h : oid' ≠ oid) :
    findOffer (l.map (fun io => if io.1 = oid then (io.1, f io.2) else io)) oid' =
      findOffer l oid' := by
  induction l with
  | nil => rfl
  | cons io rest ih =>
    by_cases h1 : io.1 = oid
    · have h2 : ¬ io.1 = oid' := by omega
      have h3 : ¬ oid = oid' := by omega
      simp [findOffer, h1, h2, h3, ih]
    · by_cases h2 : io.1 = oid'
      · simp [findOffer, h1, h2, h, ih]
      · simp [findOffer, h1, h2, ih]

lemma findOffer_append_left {l : List (Nat × Offer)} {oid : Nat} {o : Offer}
    (l2 : List (Nat × Offer)) (h : findOffer l oid = some o) :
    findOffer (l ++ l2) oid = some o := by
  induction l with
  | nil => simp [findOffer] at h
  | cons io rest ih =>
    by_cases h1 : io.1 = oid <;> simp_all [findOffer]

lemma findOffer_agentId_mem {l : List (Nat × Offer)} {oid : Nat} {o : Offer}
    (h : findOffer l oid = some o) :
    o.agent_id ∈ l.map (fun io => io.2.agent_id) := by
  induction l with
  | nil => simp [findOffer] at h
  | cons io rest ih =>
    by_cases h1 : io.1 = oid
    · simp [findOffer, h1] at h
      simp [← h]
    · simp [findOffer, h1] at h
      simp [ih h]

lemma markAccepted_offers (s : St) (oid aid : Nat) :
    (markAccepted s oid aid).offers =
      s.offers.map (fun io =>
        if io.1 = oid then
          (io.1, { io.2 with status := OfferStatus.accepted, accepted_by := some aid })
        else io) := rfl

lemma markCancelled_offers (s : St) (oid : Nat) :
    (markCancelled s oid).offers =
      s.offers.map (fun io =>
        if io.1 = oid then (io.1, { io.2 with status := OfferStatus.cancelled })
        else io) := rfl

lemma findOffer_markAccepted_self (s : St) (oid aid : Nat) :
    findOffer (markAccepted s oid aid).offers oid =
      (findOffer s.offers oid).map
        (fun o => { o with status := OfferStatus.accepted, accepted_by := some aid }) := by
  rw [markAccepted_offers]
  exact findOffer_map_update s.offers oid
    (fun o => { o with status := OfferStatus.accepted, accepted_by := some aid })

lemma findOffer_markAccepted_ne (s : St) (oid aid oid' : Nat) (h : oid' ≠ oid) :
    findOffer (markAccepted s oid aid).offers oid' = findOffer s.offers oid' := by
  rw [markAccepted_offers]
  exact findOffer_map_ne s.offers
    (fun o => { o with status := OfferStatus.accepted, accepted_by := some aid }) h

lemma findOffer_markCancelled_self (s : St) (oid : Nat) :
    findOffer (markCancelled s oid).offers oid =
      (findOffer s.offers oid).map (fun o => { o with status := OfferStatus.cancelled }) := by
  rw [markCancelled_offers]
  exact findOffer_map_update s.offers oid (fun o => { o with status := OfferStatus.cancelled })

lemma findOffer_markCancelled_ne (s : St) (oid oid' : Nat) (h : oid' ≠ oid) :
    findOffer (markCancelled s oid).offers oid' = findOffer s.offers oid' := by
  rw [markCancelled_offers]
  exact findOffer_map_ne s.offers (fun o => { o with status := OfferStatus.cancelled }) h

lemma markAccepted_map_agentId (s : St) (oid aid : Nat) :
    (markAccepted s oid aid).offers.map (fun io => io.2.agent_id) =
      s.offers.map (fun io => io.2.agent_id) := by
  rw [markAccepted_offers]
  generalize s.offers = l
  induction l with
  | nil => rfl
  | cons io rest ih =>
    by_cases h : io.1 = oid <;> simp [h, ih]

/-! ## Inversion lemmas for the operations -/

lemma settle_ok_frame {s : St} {aid : Nat} {o : Offer} {s' : St}
    (h : settle s aid o = .ok s') :
    s'.offers = s.offers ∧ s'.agents = s.agents ∧ s'.is_done = s.is_done ∧
      s'.status = s.status := by
  unfold settle at h
  repeat' split at h
  all_goals simp at h
  all_goals (subst h; simp)

lemma settle_ok_coins {s : St} {aid : Nat} {o : Offer} {s' : St}
    (h : settle s aid o = .ok s') (hne : o.agent_id ≠ aid) (i : Nat) :
    s'.coins i =
      if i = (if o.offer_type = OfferType.buy_tile ∨ o.offer_type = OfferType.buy_paint
              then o.agent_id else aid) then s.coins i - o.price
      else if i = (if o.offer_type = OfferType.buy_tile ∨ o.offer_type = OfferType.buy_paint
              then aid else o.agent_id) then s.coins i + o.price
      else s.coins i := by
  unfold settle at h
  repeat' split at h
  all_goals simp at h
  all_goals subst h
  all_goals
    simp only [setTileOwner_coins, addPaintUpsert_coins, subPaint_coins]
  all_goals rw [addCoins_coins, addCoins_coins]
  all_goals
    rcases Decidable.em (i = aid) with hi | hi <;>
      rcases Decidable.em (i = o.agent_id) with hj | hj <;>
      simp_all <;> omega

lemma accept_offer_ok {s : St} {aid oid : Nat} {s' : St}
    (h : accept_offer s aid oid = .ok s') :
    ∃ o s1, s.status = Phase.running ∧ findOffer s.offers oid = some o ∧
      o.status = OfferStatus.open_ ∧ o.agent_id ≠ aid ∧ settle s aid o = .ok s1 ∧
      s' = revoke_done (markAccepted s1 oid aid) aid := by
  unfold accept_offer at h
  split at h
  · simp at h
  case isFalse hrun =>
    have hrun' : s.status = Phase.running := not_not.mp hrun
    split at h
    · simp at h
    case h_2 o ho =>
      split at h
      · simp at h
      case isFalse hopen =>
        have hopen' : o.status = OfferStatus.open_ := not_not.mp hopen
        split at h
        · simp at h
        case isFalse hown =>
          split at h
          · simp at h
          case h_2 s1 hs1 =>
            injection h with h
            exact ⟨o, s1, hrun', ho, hopen', hown, hs1, h.symm⟩

lemma cancel_offer_ok {s : St} {aid oid : Nat} {s' : St}
    (h : cancel_offer s aid oid = .ok s') :
    ∃ o, findOffer s.offers oid = some o ∧ o.agent_id = aid ∧
      o.status = OfferStatus.open_ ∧ s' = markCancelled s oid := by
  unfold cancel_offer at h
  split at h
  · simp at h
  case h_2 o ho =>
    split at h
    · simp at h
    case isFalse hown =>
      split at h
      · simp at h
      case isFalse hopen =>
        have hopen' : o.status = OfferStatus.open_ := not_not.mp hopen
        have hown' : o.agent_id = aid := not_not.mp hown
        injection h with h
        exact ⟨o, ho, hown', hopen', h.symm⟩

lemma paint_tile_ok {s : St} {aid : Nat} {x y : Int} {c : Color} {s' : St}
    (h : paint_tile s aid x y c = .ok s') :
    ∃ t qty, s.status = Phase.running ∧ s.tiles (x, y) = some t ∧ t.owner_id = aid ∧
      tileLockedBy s aid x y = false ∧ s.paint aid c = some qty ∧ 1 ≤ qty ∧
      s' = revoke_done
        (subPaint (setTileColor (match t.color with
            | some old => addPaintUpsert s aid old 1
            | none => s) x y (some c)) aid c 1) aid := by
  unfold paint_tile at h
  split at h
  · simp at h
  case isFalse hrun =>
    have hrun' : s.status = Phase.running := not_not.mp hrun
    split at h
    · simp at h
    case h_2 t ht =>
      split at h
      · simp at h
      case isFalse hown =>
        have hown' : t.owner_id = aid := not_not.mp hown
        split at h
        · simp at h
        case isFalse hlock =>
          split at h
          · simp at h
          case h_2 qty hq =>
            split at h
            · simp at h
            case isFalse hq1 =>
              injection h with h
              exact ⟨t, qty, hrun', ht, hown', by simpa using hlock, hq, by omega, h.symm⟩

lemma unpaint_tile_ok {s : St} {aid : Nat} {x y : Int} {s' : St}
    (h : unpaint_tile s aid x y = .ok s') :
    ∃ t old, s.status = Phase.running ∧ s.tiles (x, y) = some t ∧ t.owner_id = aid ∧
      t.color = some old ∧ tileLockedBy s aid x y = false ∧
      s' = revoke_done (setTileColor (addPaintUpsert s aid old 1) x y none) aid := by
  unfold unpaint_tile at h
  split at h
  · simp at h
  case isFalse hrun =>
    have hrun' : s.status = Phase.running := not_not.mp hrun
    split at h
    · simp at h
    case h_2 t ht =>
      split at h
      · simp at h
      case isFalse hown =>
        have hown' : t.owner_id = aid := not_not.mp hown
        split at h
        · simp at h
        case h_2 old hold =>
          split at h
          · simp at h
          case isFalse hlock =>
            injection h with h
            exact ⟨t, old, hrun', ht, hown', hold, by simpa using hlock, h.symm⟩

lemma post_offer_ok {s : St} {aid : Nat} {req : OfferRequest} {s' : St}
    (h : post_offer s aid req = .ok s') :
    s.status = Phase.running ∧ s' = insertOffer s aid req := by
  unfold post_offer at h
  split at h
  · simp at h
  case isFalse hrun =>
    have hrun' : s.status = Phase.running := not_not.mp hrun
    refine ⟨hrun', ?_⟩
    repeat' split at h
    all_goals simp at h
    all_goals exact h.symm

/-! ## Coin conservation machinery -/

lemma list_sum_map_add (l : List Nat) (f g : Nat → Int) :
    (l.map (fun i => f i + g i)).sum = (l.map f).sum + (l.map g).sum := by
  induction l with
  | nil => simp
  | cons b rest ih => simp [ih]; omega

lemma sum_map_ite_single (l : List Nat) (a : Nat) (v : Int) (hnd : l.Nodup) :
    (l.map (fun i => if i = a then v else 0)).sum = if a ∈ l then v else 0 := by
  induction l with
  | nil => simp
  | cons b rest ih =>
    rcases List.nodup_cons.mp hnd with ⟨hb, hrest⟩
    by_cases hba : b = a
    · subst hba
      have hnm : ¬ b ∈ rest := hb
      simp [ih hrest, hnm]
    · have hab : a ≠ b := fun h => hba h.symm
      simp only [List.map_cons, List.sum_cons, if_neg hba, ih hrest, zero_add]
      by_cases ha : a ∈ rest
      · simp [ha]
      · simp [ha, hab]

lemma accept_ok_state {s : St} {aid oid : Nat} {s1 : St}
    (h : accept_offer s aid oid = .ok s1) :
    s1.agents = s.agents ∧
      s1.offers.map (fun io => io.2.agent_id) = s.offers.map (fun io => io.2.agent_id) := by
  obtain ⟨o, s2, hrun, ho, hopen, hown, hsettle, hs1⟩ := accept_offer_ok h
  obtain ⟨hoff, hag, _, _⟩ := settle_ok_frame hsettle
  subst hs1
  constructor
  · simp [hag]
  · rw [revoke_done_offers, markAccepted_map_agentId, hoff]

lemma accept_ok_totalCoins {s : St} {aid oid : Nat} {s' : St}
    (h : accept_offer s aid oid = .ok s') (hnd : s.agents.Nodup)
    (hmem : aid ∈ s.agents)
    (hposters : ∀ a ∈ s.offers.map (fun io => io.2.agent_id), a ∈ s.agents) :
    totalCoins s' = totalCoins s := by
  obtain ⟨o, s1, hrun, ho, hopen, hown, hsettle, hs'⟩ := accept_offer_ok h
  obtain ⟨hoff, hag, _, _⟩ := settle_ok_frame hsettle
  have hposter : o.agent_id ∈ s.agents := hposters _ (findOffer_agentId_mem ho)
  have hcoins := fun i => settle_ok_coins hsettle hown i
  set P := (if o.offer_type = OfferType.buy_tile ∨ o.offer_type = OfferType.buy_paint
    then o.agent_id else aid) with hP
  set Q := (if o.offer_type = OfferType.buy_tile ∨ o.offer_type = OfferType.buy_paint
    then aid else o.agent_id) with hQ
  have hPQ : P ≠ Q := by
    rw [hP, hQ]; split <;> omega
  have hPmem : P ∈ s.agents := by rw [hP]; split <;> assumption
  have hQmem : Q ∈ s.agents := by rw [hQ]; split <;> assumption
  have hmap : s.agents.map s1.coins =
      s.agents.map (fun i => s.coins i +
        ((if i = P then -o.price else 0) + (if i = Q then o.price else 0))) := by
    apply List.map_congr_left
    intro i _
    rw [hcoins i]
    split_ifs <;> omega
  have hsum : totalCoins s' = (s.agents.map s1.coins).sum := by
    subst hs'
    simp [totalCoins, hag]
  rw [hsum, hmap, list_sum_map_add s.agents s.coins _, list_sum_map_add s.agents _ _,
    sum_map_ite_single s.agents P (-o.price) hnd, sum_map_ite_single s.agents Q o.price hnd]
  simp [hPmem, hQmem, totalCoins]

lemma runTrades_totalCoins :
    ∀ (trades : List (Nat × Nat)) (s s' : St), s.agents.Nodup →
      (∀ a ∈ s.offers.map (fun io => io.2.agent_id), a ∈ s.agents) →
      (∀ t ∈ trades, t.1 ∈ s.agents) →
      runTrades s trades = .ok s' → totalCoins s' = totalCoins s := by
  intro trades
  induction trades with
  | nil =>
    intro s s' _ _ _ h
    unfold runTrades at h
    simp at h
    rw [h]
  | cons t rest ih =>
    intro s s' hnd hposters htr h
    unfold runTrades at h
    rcases heq : accept_offer s t.1 t.2 with e | s1
    · rw [heq] at h; simp at h
    · rw [heq] at h
      obtain ⟨hag, hoffmap⟩ := accept_ok_state heq
      have h1 : totalCoins s' = totalCoins s1 := by
        apply ih s1 s'
        · rw [hag]; exact hnd
        · rw [hag, hoffmap]; exact hposters
        · rw [hag]; exact fun t' ht' => htr t' (List.mem_cons_of_mem _ ht')
        · exact h
      rw [h1]
      exact accept_ok_totalCoins heq hnd (htr t (List.mem_cons_self _ _)) hposters

lemma paint_ok_offers {s : St} {aid : Nat} {x y : Int} {c : Color} {s' : St}
    (h : paint_tile s aid x y c = .ok s') : s'.offers = s.offers := by
  obtain ⟨t, qty, _, _, _, _, _, _, hs'⟩ := paint_tile_ok h
  subst hs'
  cases t.color <;> simp

lemma unpaint_ok_offers {s : St} {aid : Nat} {x y : Int} {s' : St}
    (h : unpaint_tile s aid x y = .ok s') : s'.offers = s.offers := by
  obtain ⟨t, old, _, _, _, _, _, hs'⟩ := unpaint_tile_ok h
  subst hs'
  simp

lemma accept_ok_coins {s : St} {aid oid : Nat} {s' : St} {o : Offer}
    (h : accept_offer s aid oid = .ok s') (ho : findOffer s.offers oid = some o) (i : Nat) :
    s'.coins i =
      if i = (if o.offer_type = OfferType.buy_tile ∨ o.offer_type = OfferType.buy_paint
              then o.agent_id else aid) then s.coins i - o.price
      else if i = (if o.offer_type = OfferType.buy_tile ∨ o.offer_type = OfferType.buy_paint
              then aid else o.agent_id) then s.coins i + o.price
      else s.coins i := by
  obtain ⟨o2, s1, hrun, ho2, hopen, hown, hsettle, hs'⟩ := accept_offer_ok h
  obtain rfl : o2 = o := Option.some.inj (ho2.symm.trans ho)
  have hc : s'.coins = s1.coins := by rw [hs']; simp
  rw [hc]
  exact settle_ok_coins hsettle hown i

/-! ## Concrete states for counterexamples and witnesses -/

/-- A running 2-agent game in which agent 1 (the poster, already done)
has listed tile (0,0) for sale as offer 5. -/
def c1St : St where
  status := .running
  grid_size := 2
  agents := [1, 2]
  coins := fun _ => 1000
  is_done := fun i => i = 1
  tiles := fun p => if p = (0, 0) then some ⟨1, none⟩ else none
  paint := fun _ _ => none
  offers := [(5, { agent_id := 1, offer_type := .sell_tile, status := .open_,
                   tile_x := some 0, tile_y := some 0, price := 10 })]
  next_offer_id := 6

/-- A running 2-agent game with an open sell_tile offer 7 by agent 1
(nobody done), used to instantiate the amended C1 theorem. -/
def c1wSt : St where
  status := .running
  grid_size := 2
  agents := [1, 2]
  coins := fun _ => 1000
  is_done := fun _ => false
  tiles := fun p => if p = (0, 0) then some ⟨1, none⟩ else none
  paint := fun _ _ => none
  offers := [(7, { agent_id := 1, offer_type := .sell_tile, status := .open_,
                   tile_x := some 0, tile_y := some 0, price := 10 })]
  next_offer_id := 8

/-- A finished game holding an open offer 3 by agent 1. -/
def c4St : St where
  status := .finished
  grid_size := 2
  agents := [1, 2]
  coins := fun _ => 1000
  is_done := fun _ => true
  tiles := fun _ => none
  paint := fun _ _ => none
  offers := [(3, { agent_id := 1, offer_type := .sell_paint, status := .open_,
                   paint_color := some .teal, paint_quantity := some 2, price := 40 })]
  next_offer_id := 4

/-- A throwaway well-formed offer request (used only to instantiate
universally quantified request arguments in witnesses). -/
def c4Req : OfferRequest :=
  { offer_type := .sell_paint, paint_color := some .teal, paint_quantity := some 1,
    price := 5, price_pos := by decide }

/-- A running game where agent 1 is done and has an open offer 2. -/
def c5St : St where
  status := .running
  grid_size := 2
  agents := [1, 2]
  coins := fun _ => 1000
  is_done := fun i => i = 1
  tiles := fun _ => none
  paint := fun _ _ => none
  offers := [(2, { agent_id := 1, offer_type := .sell_paint, status := .open_,
                   paint_color := some .plum, paint_quantity := some 1, price := 15 })]
  next_offer_id := 3

/-- A running game where the done agent 1 owns unpainted tile (0,0) and
holds one unit of teal. -/
def c5wSt : St where
  status := .running
  grid_size := 2
  agents := [1, 2]
  coins := fun _ => 1000
  is_done := fun i => i = 1
  tiles := fun p => if p = (0, 0) then some ⟨1, none⟩ else none
  paint := fun i c => if i = 1 ∧ c = .teal then some 1 else none
  offers := []
  next_offer_id := 1

/-! ## C1 -/

/-- C1 (counterexample): a settlement can succeed while leaving the
*poster's* `is_done` flag true — `accept_offer` revokes only the
accepter's flag, so the claim that both parties' flags are false
afterwards is refuted at this input. -/
theorem C1_counterexample :
    c1St.is_done 1 = true ∧
      ∃ s', accept_offer c1St 2 5 = Except.ok s' ∧ s'.is_done 1 = true :=
  ⟨rfl, _, rfl, rfl⟩

/-- C1 (amended): a successful `accept_offer` marks the offer accepted
with `accepted_by` set to the accepting agent and leaves the *accepter's*
`is_done` false; the poster's `is_done` is untouched (the poster is never
the accepter, since self-acceptance is rejected). -/
theorem C1_accept_settlement {s : St} {aid oid : Nat} {s' : St} {o : Offer}
    (h : accept_offer s aid oid = Except.ok s')
    (ho : findOffer s.offers oid = some o) :
    findOffer s'.offers oid =
        some { o with status := OfferStatus.accepted, accepted_by := some aid } ∧
      s'.is_done aid = false ∧ o.agent_id ≠ aid ∧
      s'.is_done o.agent_id = s.is_done o.agent_id := by
  obtain ⟨o2, s1, hrun, ho2, hopen, hown, hsettle, hs'⟩ := accept_offer_ok h
  obtain rfl : o2 = o := Option.some.inj (ho2.symm.trans ho)
  obtain ⟨hoff, _, hdone, _⟩ := settle_ok_frame hsettle
  subst hs'
  refine ⟨?_, ?_, hown, ?_⟩
  · rw [revoke_done_offers, findOffer_markAccepted_self, hoff, ho]; rfl
  · exact revoke_done_isDone_self _ _
  · rw [revoke_done_isDone_ne _ _ _ hown, markAccepted_is_done, hdone]

/-- C1 (witness): the amended theorem applied to the concrete state
`c1wSt`, offer 7 accepted by agent 2. -/
theorem C1_witness :
    ∃ s', accept_offer c1wSt 2 7 = Except.ok s' ∧
      findOffer s'.offers 7 =
        some { agent_id := 1, offer_type := OfferType.sell_tile,
               status := OfferStatus.accepted, tile_x := some 0, tile_y := some 0,
               paint_color := none, paint_quantity := none, price := 10,
               accepted_by := some 2 } ∧
      s'.is_done 2 = false ∧ s'.is_done 1 = c1wSt.is_done 1 := by
  refine ⟨_, rfl, ?_⟩
  have h := @C1_accept_settlement c1wSt 2 7 _
    { agent_id := 1, offer_type := OfferType.sell_tile, status := OfferStatus.open_,
      tile_x := some 0, tile_y := some 0, price := 10 } rfl rfl
  exact ⟨h.1, h.2.1, h.2.2.2⟩

/-! ## C4 -/

/-- C4 (counterexample): `cancel_offer` has no phase check — in a
finished game (phase ≠ running) cancelling an open offer still succeeds,
refuting the claim that every mutating economy operation fails with
`GameNotRunning` outside the running phase. -/
theorem C4_counterexample :
    c4St.status ≠ Phase.running ∧ ∃ s', cancel_offer c4St 1 3 = Except.ok s' :=
  ⟨by decide, _, rfl⟩

/-- C4 (amended): `paint_tile`, `unpaint_tile`, `post_offer` and
`accept_offer` all fail with `GameNotRunning` (hence change no state)
whenever the game's phase is not `running`; `cancel_offer` performs no
phase check. -/
theorem C4_phase_guard (s : St) (aid : Nat) (x y : Int) (c : Color)
    (req : OfferRequest) (oid : Nat) (h : s.status ≠ Phase.running) :
    paint_tile s aid x y c = Except.error Err.gameNotRunning ∧
      unpaint_tile s aid x y = Except.error Err.gameNotRunning ∧
      post_offer s aid req = Except.error Err.gameNotRunning ∧
      accept_offer s aid oid = Except.error Err.gameNotRunning := by
  refine ⟨?_, ?_, ?_, ?_⟩
  · unfold paint_tile; rw [if_pos h]
  · unfold unpaint_tile; rw [if_pos h]
  · unfold post_offer; rw [if_pos h]
  · unfold accept_offer; rw [if_pos h]

/-- C4 (witness): the amended theorem applied to the finished-phase state
`c4St`. -/
theorem C4_witness :
    paint_tile c4St 1 0 0 Color.indigo = Except.error Err.gameNotRunning ∧
      unpaint_tile c4St 1 0 0 = Except.error Err.gameNotRunning ∧
      post_offer c4St 1 c4Req = Except.error Err.gameNotRunning ∧
      accept_offer c4St 1 3 = Except.error Err.gameNotRunning :=
  C4_phase_guard c4St 1 0 0 Color.indigo c4Req 3 (by decide)

/-! ## C5 -/

/-- C5 (counterexample): `cancel_offer` never calls `revoke_done`, so a
done agent's successful cancellation leaves `is_done = true`, refuting
the claim for the cancel operation. -/
theorem C5_counterexample :
    c5St.is_done 1 = true ∧
      ∃ s', cancel_offer c5St 1 2 = Except.ok s' ∧ s'.is_done 1 = true :=
  ⟨rfl, _, rfl, rfl⟩

/-- C5 (amended): a successful paint, unpaint, offer post or offer accept
leaves the acting agent's `is_done` false (whatever it was before);
`cancel_offer` does not clear the flag. -/
theorem C5_done_revocation (s s' : St) (aid : Nat) (x y : Int) (c : Color)
    (req : OfferRequest) (oid : Nat) :
    (paint_tile s aid x y c = Except.ok s' → s'.is_done aid = false) ∧
      (unpaint_tile s aid x y = Except.ok s' → s'.is_done aid = false) ∧
      (post_offer s aid req = Except.ok s' → s'.is_done aid = false) ∧
      (accept_offer s aid oid = Except.ok s' → s'.is_done aid = false) := by
  refine ⟨?_, ?_, ?_, ?_⟩
  · intro h
    obtain ⟨t, qty, _, _, _, _, _, _, hs'⟩ := paint_tile_ok h
    rw [hs']; exact revoke_done_isDone_self _ _
  · intro h
    obtain ⟨t, old, _, _, _, _, _, hs'⟩ := unpaint_tile_ok h
    rw [hs']; exact revoke_done_isDone_self _ _
  · intro h
    obtain ⟨_, hs'⟩ := post_offer_ok h
    rw [hs']; exact revoke_done_isDone_self _ _
  · intro h
    obtain ⟨o, s1, _, _, _, _, _, hs'⟩ := accept_offer_ok h
    rw [hs']; exact revoke_done_isDone_self _ _

/-- C5 (witness): the amended theorem's paint clause applied to `c5wSt`,
where the done agent 1 successfully paints tile (0,0) teal. -/
theorem C5_witness :
    c5wSt.is_done 1 = true ∧
      ∃ s', paint_tile c5wSt 1 0 0 Color.teal = Except.ok s' ∧ s'.is_done 1 = false := by
  refine ⟨rfl, _, rfl, ?_⟩
  exact (C5_done_revocation c5wSt _ 1 0 0 Color.teal c4Req 0).1 rfl

/-! ## C2 and C3 — paint-locking divergence -/

/-- A running 2-agent game where agent 1 owns tile (0,0), holds exactly 1
unit of indigo, and has that whole unit locked in its open `sell_paint`
offer 1: available indigo = 1 − 1 = 0. -/
def c2St : St where
  status := .running
  grid_size := 2
  agents := [1, 2]
  coins := fun _ => 1000
  is_done := fun _ => false
  tiles := fun p => if p = (0, 0) then some ⟨1, none⟩ else none
  paint := fun i c => if i = 1 ∧ c = .indigo then some 1 else none
  offers := [(1, { agent_id := 1, offer_type := .sell_paint, status := .open_,
                   paint_color := some .indigo, paint_quantity := some 1, price := 10 })]
  next_offer_id := 2

/-- C2 (failing input): with all of agent 1's single unit of indigo
locked in its own open sell_paint offer, `available_paint` is 0, yet
`paint_tile` succeeds — the handler checks the raw `paint_inventory`
quantity (`grid.py:30-36`), never `available_paint`.  The claim (and
§4.3 of the spec) says the call must fail with `InsufficientPaint`. -/
theorem C2_paint_ignores_lock :
    available_paint c2St 1 Color.indigo = 0 ∧
      ∃ s', paint_tile c2St 1 0 0 Color.indigo = Except.ok s' ∧
        s'.paint 1 Color.indigo = some 0 :=
  ⟨rfl, _, rfl, rfl⟩

/-- A freshly started 2×2 game with 2 agents: agent 1 owns column 0,
agent 2 column 1 (the exact output of `distribute_tiles 2 [1, 2]`), and
each agent holds 4 colors at quantity 1 (= ceil(4 / (2·4))), exactly as
`distribute_paint` allocates with the identity shuffle. -/
def c3St : St where
  status := .running
  grid_size := 2
  agents := [1, 2]
  coins := fun _ => 1000
  is_done := fun _ => false
  tiles := fun p =>
    if p = (0, 0) then some ⟨1, none⟩ else if p = (0, 1) then some ⟨1, none⟩
    else if p = (1, 0) then some ⟨2, none⟩ else if p = (1, 1) then some ⟨2, none⟩
    else none
  paint := fun i c =>
    if i = 1 ∧ (c = .indigo ∨ c = .saffron ∨ c = .vermillion ∨ c = .plum) then some 1
    else if i = 2 ∧ (c = .teal ∨ c = .coral ∨ c = .slate ∨ c = .cream) then some 1
    else none
  offers := []
  next_offer_id := 1

/-- Agent 1's request: sell its single unit of indigo for 10 coins. -/
def c3Req : OfferRequest :=
  { offer_type := .sell_paint, paint_color := some .indigo, paint_quantity := some 1,
    price := 10, price_pos := by decide }

/-- C3 (failing input): from the started game `c3St`, the sequence
post(sell_paint indigo 1) → paint(0,0,indigo) → accept reaches a state
where agent 1's indigo PaintStock quantity is −1: posting locks the unit,
painting spends it anyway (raw-stock check), and the settlement
decrements the now-zero stock below zero. -/
theorem C3_negative_paint_reachable :
    ∃ s1 s2 s3, post_offer c3St 1 c3Req = Except.ok s1 ∧
      paint_tile s1 1 0 0 Color.indigo = Except.ok s2 ∧
      accept_offer s2 2 1 = Except.ok s3 ∧
      s3.paint 1 Color.indigo = some (-1) :=
  ⟨_, _, _, rfl, rfl, rfl, rfl⟩

/-! ## C6 — coin conservation -/

/-- A running 2-agent game with one open sell_paint offer (id 1, poster
agent 1, 1 teal for 50 coins). -/
def c6St : St where
  status := .running
  grid_size := 2
  agents := [1, 2]
  coins := fun _ => 1000
  is_done := fun _ => false
  tiles := fun _ => none
  paint := fun i c => if i = 1 ∧ c = .teal then some 5 else none
  offers := [(1, { agent_id := 1, offer_type := .sell_paint, status := .open_,
                   paint_color := some .teal, paint_quantity := some 1, price := 50 })]
  next_offer_id := 2

/-- C6: every successful settlement moves exactly `price` coins from the
paying party (the accepter for sell offers, the poster for buy offers) to
the receiving party, touching no other balance; consequently the total of
coins over the game's agents is unchanged by any successful sequence of
trades (the hypotheses — distinct agent rows, offers posted by agents of
the game, accepters registered in the game — mirror the database's
primary-key and foreign-key constraints). -/
theorem C6_coin_conservation :
    (∀ (s : St) (aid oid : Nat) (s' : St) (o : Offer),
        accept_offer s aid oid = Except.ok s' → findOffer s.offers oid = some o →
        (s'.coins (if o.offer_type = OfferType.buy_tile ∨ o.offer_type = OfferType.buy_paint
            then o.agent_id else aid) =
          s.coins (if o.offer_type = OfferType.buy_tile ∨ o.offer_type = OfferType.buy_paint
            then o.agent_id else aid) - o.price) ∧
        (s'.coins (if o.offer_type = OfferType.buy_tile ∨ o.offer_type = OfferType.buy_paint
            then aid else o.agent_id) =
          s.coins (if o.offer_type = OfferType.buy_tile ∨ o.offer_type = OfferType.buy_paint
            then aid else o.agent_id) + o.price) ∧
        (∀ i, i ≠ aid → i ≠ o.agent_id → s'.coins i = s.coins i)) ∧
    (∀ (s : St) (trades : List (Nat × Nat)) (s' : St), s.agents.Nodup →
      (∀ a ∈ s.offers.map (fun io => io.2.agent_id), a ∈ s.agents) →
      (∀ t ∈ trades, (t : Nat × Nat).1 ∈ s.agents) →
      runTrades s trades = Except.ok s' → totalCoins s' = totalCoins s) := by
  constructor
  · intro s aid oid s' o h ho
    obtain ⟨o2, s1, _, ho2, _, hown2, _, _⟩ := accept_offer_ok h
    have heqo : o2 = o := Option.some.inj (ho2.symm.trans ho)
    have hown : o.agent_id ≠ aid := heqo ▸ hown2
    have hc := accept_ok_coins h ho
    set P := (if o.offer_type = OfferType.buy_tile ∨ o.offer_type = OfferType.buy_paint
      then o.agent_id else aid) with hP
    set Q := (if o.offer_type = OfferType.buy_tile ∨ o.offer_type = OfferType.buy_paint
      then aid else o.agent_id) with hQ
    have hQP : Q ≠ P := by rw [hP, hQ]; split <;> omega
    refine ⟨?_, ?_, ?_⟩
    · rw [hc P]; simp
    · rw [hc Q]; simp [hQP]
    · intro i h1 h2
      have hiP : i ≠ P := by rw [hP]; split <;> assumption
      have hiQ : i ≠ Q := by rw [hQ]; split <;> assumption
      rw [hc i]; simp [hiP, hiQ]
  · exact fun s trades s' => runTrades_totalCoins trades s s'

/-- C6 (witness): both parts of the conservation theorem applied to the
concrete trade in `c6St` (agent 2 accepts the 50-coin sell_paint offer). -/
theorem C6_witness :
    (∃ s', accept_offer c6St 2 1 = Except.ok s' ∧
       s'.coins 2 = c6St.coins 2 - 50 ∧ s'.coins 1 = c6St.coins 1 + 50) ∧
    (∃ s', runTrades c6St [(2, 1)] = Except.ok s' ∧ totalCoins s' = totalCoins c6St) := by
  constructor
  · refine ⟨_, rfl, ?_, ?_⟩
    · exact (C6_coin_conservation.1 c6St 2 1 _ _ rfl rfl).1
    · exact (C6_coin_conservation.1 c6St 2 1 _ _ rfl rfl).2.1
  · refine ⟨_, rfl, ?_⟩
    exact C6_coin_conservation.2 c6St [(2, 1)] _ (by decide) (by decide) (by decide) rfl

/-! ## C7 — offer-status terminality -/

lemma insertOffer_offers (s : St) (aid : Nat) (req : OfferRequest) :
    (insertOffer s aid req).offers =
      s.offers ++ [(s.next_offer_id,
        { agent_id := aid, offer_type := req.offer_type, status := OfferStatus.open_,
          tile_x := req.tile_x, tile_y := req.tile_y, paint_color := req.paint_color,
          paint_quantity := req.paint_quantity, price := req.price,
          accepted_by := none })] := by
  unfold insertOffer
  rw [revoke_done_offers]

/-- C7: an offer whose status is no longer open can neither be accepted
nor cancelled — `accept_offer` fails with the phase error or "Offer is no
longer open", `cancel_offer` with "Not your offer" (permission) or "Offer
is not open", and an error result leaves the state unchanged; moreover,
under every mutating operation an offer row's status either stays what it
was or moves from open to accepted/cancelled — terminal statuses never
change again and no transition other than open→accepted / open→cancelled
exists. -/
theorem C7_offer_terminality :
    (∀ (s : St) (aid oid : Nat) (o : Offer),
        findOffer s.offers oid = some o → o.status ≠ OfferStatus.open_ →
        (accept_offer s aid oid = Except.error Err.gameNotRunning ∨
         accept_offer s aid oid = Except.error Err.offerNotOpen) ∧
        (cancel_offer s aid oid = Except.error Err.notYourOffer ∨
         cancel_offer s aid oid = Except.error Err.offerNotOpen)) ∧
    (∀ (s : St) (op : Op) (s' : St), applyOp s op = Except.ok s' →
      ∀ (oid : Nat) (o : Offer), findOffer s.offers oid = some o →
      ∃ o', findOffer s'.offers oid = some o' ∧
        (o'.status = o.status ∨
          (o.status = OfferStatus.open_ ∧
            (o'.status = OfferStatus.accepted ∨ o'.status = OfferStatus.cancelled)))) := by
  constructor
  · intro s aid oid o ho hterm
    constructor
    · by_cases hrun : s.status ≠ Phase.running
      · left; unfold accept_offer; rw [if_pos hrun]
      · right
        simp only [accept_offer, if_neg hrun, ho]
        rw [if_pos hterm]
    · by_cases hag : o.agent_id ≠ aid
      · left
        simp only [cancel_offer, ho]
        rw [if_pos hag]
      · right
        simp only [cancel_offer, ho]
        rw [if_neg hag, if_pos hterm]
  · intro s op s' hop oid o ho
    cases op with
    | paint aid x y c =>
      refine ⟨o, ?_, Or.inl rfl⟩
      rw [paint_ok_offers hop]; exact ho
    | unpaint aid x y =>
      refine ⟨o, ?_, Or.inl rfl⟩
      rw [unpaint_ok_offers hop]; exact ho
    | post aid req =>
      obtain ⟨_, hs'⟩ := post_offer_ok hop
      refine ⟨o, ?_, Or.inl rfl⟩
      rw [hs', insertOffer_offers]
      exact findOffer_append_left _ ho
    | accept aid oid2 =>
      obtain ⟨o2, s1, hrun, ho2, hopen, hown, hsettle, hs'⟩ := accept_offer_ok hop
      obtain ⟨hoff, _, _, _⟩ := settle_ok_frame hsettle
      by_cases heq : oid = oid2
      · subst heq
        have heqo : o = o2 := Option.some.inj (ho.symm.trans ho2)
        subst heqo
        refine ⟨{ o with status := OfferStatus.accepted, accepted_by := some aid }, ?_,
          Or.inr ⟨hopen, Or.inl rfl⟩⟩
        rw [hs', revoke_done_offers, findOffer_markAccepted_self, hoff, ho]; rfl
      · refine ⟨o, ?_, Or.inl rfl⟩
        rw [hs', revoke_done_offers, findOffer_markAccepted_ne _ _ _ _ heq, hoff]
        exact ho
    | cancel aid oid2 =>
      obtain ⟨o2, ho2, hag, hopen, hs'⟩ := cancel_offer_ok hop
      by_cases heq : oid = oid2
      · subst heq
        have heqo : o = o2 := Option.some.inj (ho.symm.trans ho2)
        subst heqo
        refine ⟨{ o with status := OfferStatus.cancelled }, ?_,
          Or.inr ⟨hopen, Or.inr rfl⟩⟩
        rw [hs', findOffer_markCancelled_self, ho]; rfl
      · refine ⟨o, ?_, Or.inl rfl⟩
        rw [hs', findOffer_markCancelled_ne _ _ _ heq]
        exact ho

/-- A running game with an already-accepted offer 9 (poster 1, accepted
by 2 earlier) used to instantiate C7's terminality part, plus an open
offer 4 for the transition part. -/
def c7St : St where
  status := .running
  grid_size := 2
  agents := [1, 2]
  coins := fun _ => 1000
  is_done := fun _ => false
  tiles := fun _ => none
  paint := fun _ _ => none
  offers := [(9, { agent_id := 1, offer_type := .sell_paint, status := .accepted,
                   paint_color := some .cream, paint_quantity := some 1, price := 20,
                   accepted_by := some 2 }),
             (4, { agent_id := 1, offer_type := .sell_paint, status := .open_,
                   paint_color := some .slate, paint_quantity := some 2, price := 30 })]
  next_offer_id := 10

/-- C7 (witness): both parts applied at `c7St` — the accepted offer 9
cannot be accepted again or cancelled, and cancelling the open offer 4
moves it to cancelled while leaving offer 9 untouched. -/
theorem C7_witness :
    ((accept_offer c7St 2 9 = Except.error Err.gameNotRunning ∨
      accept_offer c7St 2 9 = Except.error Err.offerNotOpen) ∧
     (cancel_offer c7St 2 9 = Except.error Err.notYourOffer ∨
      cancel_offer c7St 2 9 = Except.error Err.offerNotOpen)) ∧
    (∃ s', applyOp c7St (Op.cancel 1 4) = Except.ok s' ∧
      ∃ o', findOffer s'.offers 9 = some o' ∧
        (o'.status = OfferStatus.accepted ∨
          (OfferStatus.accepted = OfferStatus.open_ ∧
            (o'.status = OfferStatus.accepted ∨ o'.status = OfferStatus.cancelled)))) := by
  constructor
  · exact C7_offer_terminality.1 c7St 2 9 _ rfl (by decide)
  · refine ⟨_, rfl, ?_⟩
    exact C7_offer_terminality.2 c7St (Op.cancel 1 4) _ rfl 9 _ rfl

/-! ## C10 — settlement-time available-coins check -/

/-- C10: accepting a sell_tile or sell_paint offer requires the
accepter's *available* coins (raw coins minus coins locked in the
accepter's own open buy offers) to cover the price: every successful
acceptance implies `price ≤ available_coins`, and when available coins
fall short — all other settlement preconditions holding — the call fails
with the insufficient-coins error (and, being an error, changes no
state). -/
theorem C10_settlement_coin_check :
    ∀ (s : St) (aid oid : Nat) (o : Offer),
      findOffer s.offers oid = some o →
      (o.offer_type = OfferType.sell_tile ∨ o.offer_type = OfferType.sell_paint) →
      (∀ s', accept_offer s aid oid = Except.ok s' → o.price ≤ available_coins s aid) ∧
      (s.status = Phase.running → o.status = OfferStatus.open_ → o.agent_id ≠ aid →
        available_coins s aid < o.price →
        accept_offer s aid oid = Except.error Err.insufficientCoins) := by
  intro s aid oid o ho htype
  constructor
  · intro s' h
    obtain ⟨o2, s1, _, ho2, _, _, hsettle, _⟩ := accept_offer_ok h
    obtain rfl : o2 = o := Option.some.inj (ho2.symm.trans ho)
    unfold settle at hsettle
    rcases htype with ht | ht
    · simp only [ht] at hsettle
      split at hsettle
      · simp at hsettle
      · omega
    · simp only [ht] at hsettle
      split at hsettle
      · simp at hsettle
      · omega
  · intro hrun hopen hne hlt
    have hnr : ¬ s.status ≠ Phase.running := by simp [hrun]
    simp only [accept_offer, if_neg hnr, ho]
    rw [if_neg (by simp [hopen]), if_neg hne]
    rcases htype with ht | ht <;>
      · unfold settle
        simp only [ht]
        rw [if_pos hlt]

/-- A running game where accepter 2 can afford the open 30-coin sell_tile
offer 4 of agent 1. -/
def c10aSt : St where
  status := .running
  grid_size := 2
  agents := [1, 2]
  coins := fun _ => 1000
  is_done := fun _ => false
  tiles := fun p => if p = (1, 1) then some ⟨1, none⟩ else none
  paint := fun _ _ => none
  offers := [(4, { agent_id := 1, offer_type := .sell_tile, status := .open_,
                   tile_x := some 1, tile_y := some 1, price := 30 })]
  next_offer_id := 5

/-- A running game where accepter 2 has 10 coins against a 100-coin open
sell_paint offer 4 of agent 1: available coins 10 < 100. -/
def c10bSt : St where
  status := .running
  grid_size := 2
  agents := [1, 2]
  coins := fun i => if i = 2 then 10 else 1000
  is_done := fun _ => false
  tiles := fun _ => none
  paint := fun i c => if i = 1 ∧ c = .coral then some 3 else none
  offers := [(4, { agent_id := 1, offer_type := .sell_paint, status := .open_,
                   paint_color := some .coral, paint_quantity := some 3, price := 100 })]
  next_offer_id := 5

/-- C10 (witness): the theorem applied at `c10aSt` (successful accept
implies 30 ≤ available coins) and at `c10bSt` (available 10 < 100 forces
the insufficient-coins error). -/
theorem C10_witness :
    (∃ s', accept_offer c10aSt 2 4 = Except.ok s' ∧
       (30 : Int) ≤ available_coins c10aSt 2) ∧
    accept_offer c10bSt 2 4 = Except.error Err.insufficientCoins := by
  constructor
  · refine ⟨_, rfl, ?_⟩
    exact (C10_settlement_coin_check c10aSt 2 4 _ rfl (Or.inl rfl)).1 _ rfl
  · exact (C10_settlement_coin_check c10bSt 2 4 _ rfl (Or.inr rfl)).2 rfl rfl
      (by decide) (by decide)

/-! ## C8 — grid allocation covers every cell exactly once -/

lemma pyRound_le {num den M : Nat} (hden : 0 < den) (h : num ≤ den * M) :
    pyRound num den ≤ M := by
  unfold pyRound
  rw [if_neg (by omega)]
  have hdm := Nat.div_add_mod num den
  have hmod : num % den < den := Nat.mod_lt _ hden
  have hq : num / den ≤ M := by
    have h1 : den * (num / den) ≤ den * M := by omega
    exact Nat.le_of_mul_le_mul_left h1 hden
  dsimp only
  split_ifs with h1 h2 h3
  · exact hq
  · -- den < 2 * (num % den): the remainder is positive, so num / den < M
    have hr1 : 1 ≤ num % den := by omega
    have hlt : den * (num / den) < den * M := by omega
    have := Nat.lt_of_mul_lt_mul_left hlt
    omega
  · exact hq
  · have hr1 : 1 ≤ num % den := by omega
    have hlt : den * (num / den) < den * M := by omega
    have := Nat.lt_of_mul_lt_mul_left hlt
    omega

lemma countP_col (a x' x y y0 m : Nat) :
    ((List.range' y0 m).map (fun y' => (x', y', a))).countP
        (fun t => decide (t.1 = x ∧ t.2.1 = y)) =
      if x' = x ∧ y0 ≤ y ∧ y < y0 + m then 1 else 0 := by
  induction m generalizing y0 with
  | zero =>
    simp only [List.range'_zero, List.map_nil, List.countP_nil]
    split_ifs <;> omega
  | succ m ih =>
    rw [List.range'_succ, List.map_cons, List.countP_cons, ih (y0 + 1)]
    simp only [decide_eq_true_eq]
    split_ifs <;> omega

lemma countP_cells_aux (a y0 m x y : Nat) : ∀ (n x0 : Nat),
    (((List.range' x0 n).flatMap
        (fun x' => (List.range' y0 m).map (fun y' => (x', y', a))))).countP
        (fun t => decide (t.1 = x ∧ t.2.1 = y)) =
      if x0 ≤ x ∧ x < x0 + n ∧ y0 ≤ y ∧ y < y0 + m then 1 else 0 := by
  intro n
  induction n with
  | zero =>
    intro x0
    simp only [List.range'_zero, List.flatMap_nil, List.countP_nil]
    split_ifs <;> omega
  | succ n ih =>
    intro x0
    rw [List.range'_succ, List.flatMap_cons, List.countP_append, countP_col, ih (x0 + 1)]
    split_ifs <;> omega

lemma countP_cellsFor (a x0 y0 x1 y1 x y : Nat) (hx : x0 ≤ x1) (hy : y0 ≤ y1) :
    (cellsFor a x0 y0 x1 y1).countP (fun t => decide (t.1 = x ∧ t.2.1 = y)) =
      if x0 ≤ x ∧ x < x1 ∧ y0 ≤ y ∧ y < y1 then 1 else 0 := by
  unfold cellsFor
  rw [countP_cells_aux]
  split_ifs <;> omega

lemma mem_cellsFor {a x0 y0 x1 y1 : Nat} {t : Nat × Nat × Nat}
    (ht : t ∈ cellsFor a x0 y0 x1 y1) :
    t.2.2 = a ∧ x0 ≤ t.1 ∧ t.1 < x0 + (x1 - x0) ∧ y0 ≤ t.2.1 ∧ t.2.1 < y0 + (y1 - y0) := by
  unfold cellsFor at ht
  obtain ⟨x', hx', ht⟩ := List.mem_flatMap.mp ht
  obtain ⟨y', hy', rfl⟩ := List.mem_map.mp ht
  obtain ⟨_, _⟩ := List.mem_range'_1.mp hx'
  obtain ⟨_, _⟩ := List.mem_range'_1.mp hy'
  refine ⟨rfl, ?_, ?_, ?_, ?_⟩ <;> dsimp only <;> omega

lemma distAssign_split_le {x0 x1 ln lt : Nat} (hx : x0 ≤ x1) (hln : 0 < ln) (hlt : lt ≤ ln) :
    x0 + pyRound ((x1 - x0) * lt) ln ≤ x1 := by
  have h := @pyRound_le ((x1 - x0) * lt) ln (x1 - x0) hln
    (by calc (x1 - x0) * lt ≤ (x1 - x0) * ln := Nat.mul_le_mul_left _ hlt
          _ = ln * (x1 - x0) := Nat.mul_comm _ _)
  omega

lemma distAssign_countP :
    ∀ (n : Nat) (agents : List Nat), agents.length ≤ n → agents ≠ [] →
    ∀ (x0 y0 x1 y1 : Nat), x0 ≤ x1 → y0 ≤ y1 → ∀ (x y : Nat),
      (distAssign agents x0 y0 x1 y1).countP (fun t => decide (t.1 = x ∧ t.2.1 = y)) =
        if x0 ≤ x ∧ x < x1 ∧ y0 ≤ y ∧ y < y1 then 1 else 0 := by
  intro n
  induction n with
  | zero =>
    intro agents hlen hne
    exact absurd (List.length_eq_zero.mp (by omega)) hne
  | succ n ih =>
    intro agents hlen hne x0 y0 x1 y1 hx hy x y
    match agents with
    | [a] =>
      rw [distAssign]
      exact countP_cellsFor a x0 y0 x1 y1 x y hx hy
    | a :: b :: rest =>
      rw [distAssign]
      have hlen2 : 2 ≤ (a :: b :: rest).length := by
        simp only [List.length_cons]
        omega
      have hmid1 : 1 ≤ (a :: b :: rest).length / 2 := by omega
      have hmidlt : (a :: b :: rest).length / 2 < (a :: b :: rest).length := by omega
      have htake_len : ((a :: b :: rest).take ((a :: b :: rest).length / 2)).length =
          (a :: b :: rest).length / 2 := List.length_take_of_le (by omega)
      have hdrop_len : ((a :: b :: rest).drop ((a :: b :: rest).length / 2)).length =
          (a :: b :: rest).length - (a :: b :: rest).length / 2 := List.length_drop _ _
      have htake_ne : (a :: b :: rest).take ((a :: b :: rest).length / 2) ≠ [] := by
        intro hnil
        rw [← List.length_eq_zero] at hnil
        omega
      have hdrop_ne : (a :: b :: rest).drop ((a :: b :: rest).length / 2) ≠ [] := by
        intro hnil
        rw [← List.length_eq_zero] at hnil
        omega
      by_cases hdir : x1 - x0 ≥ y1 - y0
      · rw [if_pos hdir, List.countP_append]
        have hsplit_le : x0 + pyRound ((x1 - x0) *
            ((a :: b :: rest).take ((a :: b :: rest).length / 2)).length)
            (a :: b :: rest).length ≤ x1 :=
          distAssign_split_le hx (by omega) (by omega)
        rw [ih _ (by rw [htake_len]; omega) htake_ne x0 y0 _ y1 (by omega) hy x y,
          ih _ (by rw [hdrop_len]; omega) hdrop_ne _ y0 x1 y1 hsplit_le hy x y]
        split_ifs <;> omega
      · rw [if_neg hdir, List.countP_append]
        have hsplit_le : y0 + pyRound ((y1 - y0) *
            ((a :: b :: rest).take ((a :: b :: rest).length / 2)).length)
            (a :: b :: rest).length ≤ y1 :=
          distAssign_split_le hy (by omega) (by omega)
        rw [ih _ (by rw [htake_len]; omega) htake_ne x0 y0 x1 _ hx (by omega) x y,
          ih _ (by rw [hdrop_len]; omega) hdrop_ne x0 _ x1 y1 hx hsplit_le x y]
        split_ifs <;> omega

lemma mem_distAssign :
    ∀ (n : Nat) (agents : List Nat), agents.length ≤ n → agents ≠ [] →
    ∀ (x0 y0 x1 y1 : Nat), x0 ≤ x1 → y0 ≤ y1 →
    ∀ t ∈ distAssign agents x0 y0 x1 y1,
      t.2.2 ∈ agents ∧ x0 ≤ t.1 ∧ t.1 < x1 ∧ y0 ≤ t.2.1 ∧ t.2.1 < y1 := by
  intro n
  induction n with
  | zero =>
    intro agents hlen hne
    exact absurd (List.length_eq_zero.mp (by omega)) hne
  | succ n ih =>
    intro agents hlen hne x0 y0 x1 y1 hx hy t ht
    match agents with
    | [a] =>
      rw [distAssign] at ht
      obtain ⟨h1, h2, h3, h4, h5⟩ := mem_cellsFor ht
      exact ⟨by rw [h1]; exact List.mem_singleton_self a, by omega, by omega, by omega, by omega⟩
    | a :: b :: rest =>
      rw [distAssign] at ht
      have hlen2 : 2 ≤ (a :: b :: rest).length := by
        simp only [List.length_cons]
        omega
      have hmid1 : 1 ≤ (a :: b :: rest).length / 2 := by omega
      have hmidlt : (a :: b :: rest).length / 2 < (a :: b :: rest).length := by omega
      have htake_len : ((a :: b :: rest).take ((a :: b :: rest).length / 2)).length =
          (a :: b :: rest).length / 2 := List.length_take_of_le (by omega)
      have hdrop_len : ((a :: b :: rest).drop ((a :: b :: rest).length / 2)).length =
          (a :: b :: rest).length - (a :: b :: rest).length / 2 := List.length_drop _ _
      have htake_ne : (a :: b :: rest).take ((a :: b :: rest).length / 2) ≠ [] := by
        intro hnil
        rw [← List.length_eq_zero] at hnil
        omega
      have hdrop_ne : (a :: b :: rest).drop ((a :: b :: rest).length / 2) ≠ [] := by
        intro hnil
        rw [← List.length_eq_zero] at hnil
        omega
      by_cases hdir : x1 - x0 ≥ y1 - y0
      · rw [if_pos hdir] at ht
        have hsplit_le : x0 + pyRound ((x1 - x0) *
            ((a :: b :: rest).take ((a :: b :: rest).length / 2)).length)
            (a :: b :: rest).length ≤ x1 :=
          distAssign_split_le hx (by omega) (by omega)
        rcases List.mem_append.mp ht with hmem | hmem
        · obtain ⟨ha, h1, h2, h3, h4⟩ :=
            ih _ (by rw [htake_len]; omega) htake_ne x0 y0 _ y1 (by omega) hy t hmem
          exact ⟨List.take_subset _ _ ha, by omega, by omega, by omega, by omega⟩
        · obtain ⟨ha, h1, h2, h3, h4⟩ :=
            ih _ (by rw [hdrop_len]; omega) hdrop_ne _ y0 x1 y1 hsplit_le hy t hmem
          exact ⟨List.drop_subset _ _ ha, by omega, by omega, by omega, by omega⟩
      · rw [if_neg hdir] at ht
        have hsplit_le : y0 + pyRound ((y1 - y0) *
            ((a :: b :: rest).take ((a :: b :: rest).length / 2)).length)
            (a :: b :: rest).length ≤ y1 :=
          distAssign_split_le hy (by omega) (by omega)
        rcases List.mem_append.mp ht with hmem | hmem
        · obtain ⟨ha, h1, h2, h3, h4⟩ :=
            ih _ (by rw [htake_len]; omega) htake_ne x0 y0 x1 _ hx (by omega) t hmem
          exact ⟨List.take_subset _ _ ha, by omega, by omega, by omega, by omega⟩
        · obtain ⟨ha, h1, h2, h3, h4⟩ :=
            ih _ (by rw [hdrop_len]; omega) hdrop_ne x0 _ x1 y1 hx hsplit_le t hmem
          exact ⟨List.drop_subset _ _ ha, by omega, by omega, by omega, by omega⟩

/-- C8: for every grid size N ≥ 1 and list of 2–8 distinct agent ids,
`distribute_tiles` assigns every one of the N² cells exactly once (its
coordinate pair occurs in exactly one output triple) and every output
triple lies inside the grid with an owner drawn from the agent list. -/
theorem C8_grid_allocation (N K : Nat) (agents : List Nat)
    (h1 : 1 ≤ N) (h2 : agents.length = K) (h3 : 2 ≤ K) (h4 : K ≤ 8)
    (h5 : agents.Nodup) :
    (∀ x y, x < N → y < N →
      (distribute_tiles N agents).countP (fun t => decide (t.1 = x ∧ t.2.1 = y)) = 1) ∧
    (∀ t ∈ distribute_tiles N agents, t.1 < N ∧ t.2.1 < N ∧ t.2.2 ∈ agents) := by
  have hne : agents ≠ [] := by
    intro h
    rw [h] at h2
    simp at h2
    omega
  constructor
  · intro x y hx hy
    unfold distribute_tiles
    rw [distAssign_countP agents.length agents le_rfl hne 0 0 N N (by omega) (by omega) x y]
    simp [hx, hy]
  · intro t ht
    obtain ⟨ha, _, hx1, _, hy1⟩ :=
      mem_distAssign agents.length agents le_rfl hne 0 0 N N (by omega) (by omega) t ht
    exact ⟨hx1, hy1, ha⟩

/-- C8 (witness): the allocation theorem applied at N = 2, agents
[1, 2]; cell (1, 0) is covered exactly once. -/
theorem C8_witness :
    (distribute_tiles 2 [1, 2]).countP (fun t => decide (t.1 = 1 ∧ t.2.1 = 0)) = 1 :=
  (C8_grid_allocation 2 2 [1, 2] (by decide) rfl (by decide) (by decide)
    (by decide)).1 1 0 (by decide) (by decide)

/-! ## C9 — paint allocation -/

lemma mem_COLOR_NAMES (c : Color) : c ∈ COLOR_NAMES := by
  cases c <;> decide

lemma COLOR_NAMES_nodup : COLOR_NAMES.Nodup := by decide

lemma COLOR_NAMES_length : COLOR_NAMES.length = 8 := rfl

lemma countRR_bound_aux :
    ∀ n < 9, ∀ j < n, 2 ≤ n →
      (List.range 8).countP (fun i => decide (i % n = j)) ≤ 4 := by decide

lemma firstPass_nodup (agents : List Nat) (shuffled : List Color) (aid : Nat)
    (hsh : shuffled.Nodup) : (firstPass agents shuffled aid).Nodup := by
  unfold firstPass
  have h1 : List.Sublist
      (shuffled.enum.filter
        (fun ic => decide (agents.getD (ic.1 % agents.length) 0 = aid)))
      shuffled.enum :=
    List.filter_sublist _
  have h2 := h1.map Prod.snd
  rw [List.enum_map_snd] at h2
  exact h2.nodup hsh

lemma firstPass_length_le (agents : List Nat) (shuffled : List Color) (aid : Nat)
    (hnd : agents.Nodup) (hlen8 : shuffled.length = 8)
    (hn2 : 2 ≤ agents.length) (hn8 : agents.length ≤ 8) :
    (firstPass agents shuffled aid).length ≤ 4 := by
  unfold firstPass
  rw [List.length_map, ← List.countP_eq_length_filter]
  have hn : 0 < agents.length := by omega
  by_cases hmem : aid ∈ agents
  · obtain ⟨⟨j, hj⟩, hget⟩ := List.mem_iff_get.mp hmem
    have hget' : agents[j] = aid := hget
    have hcount : shuffled.enum.countP
          (fun ic => decide (agents.getD (ic.1 % agents.length) 0 = aid)) =
        shuffled.enum.countP (fun ic => decide (ic.1 % agents.length = j)) := by
      apply List.countP_congr
      intro ic _
      have hidx : ic.1 % agents.length < agents.length := Nat.mod_lt _ hn
      simp only [decide_eq_true_eq]
      rw [List.getD_eq_getElem agents 0 hidx]
      constructor
      · intro h
        exact hnd.getElem_inj_iff.mp (h.trans hget'.symm)
      · intro h
        simp only [h]
        exact hget'
    rw [hcount]
    have henum : shuffled.enum.countP (fun ic => decide (ic.1 % agents.length = j)) =
        (List.range 8).countP (fun i => decide (i % agents.length = j)) := by
      rw [← hlen8, ← List.enum_map_fst shuffled, List.countP_map]
      rfl
    rw [henum]
    exact countRR_bound_aux agents.length (by omega) j (by omega) hn2
  · have hz : shuffled.enum.countP
        (fun ic => decide (agents.getD (ic.1 % agents.length) 0 = aid)) = 0 := by
      rw [List.countP_eq_zero]
      intro ic _
      simp only [decide_eq_true_eq]
      intro heq
      apply hmem
      have hidx : ic.1 % agents.length < agents.length := Nat.mod_lt _ hn
      rw [← heq, List.getD_eq_getElem agents 0 hidx]
      exact List.getElem_mem _
    rw [hz]
    omega

lemma firstPass_cover (agents : List Nat) (shuffled : List Color)
    (hn : 0 < agents.length) (c : Color) (hc : c ∈ shuffled) :
    ∃ aid ∈ agents, c ∈ firstPass agents shuffled aid := by
  obtain ⟨⟨i, hi⟩, hget⟩ := List.mem_iff_get.mp hc
  have hidx : i % agents.length < agents.length := Nat.mod_lt _ hn
  refine ⟨agents.getD (i % agents.length) 0, ?_, ?_⟩
  · rw [List.getD_eq_getElem agents 0 hidx]
    exact List.getElem_mem _
  · unfold firstPass
    apply List.mem_map.mpr
    refine ⟨(i, c), ?_, rfl⟩
    apply List.mem_filter.mpr
    constructor
    · have hi2 : i < shuffled.enum.length := by simpa using hi
      have hsc : shuffled[i] = c := hget
      have hic : shuffled.enum[i] = (i, c) := by
        rw [List.getElem_enum, hsc]
      rw [← hic]
      exact List.getElem_mem _
    · simp

lemma topUp_spec :
    ∀ (fuel : Nat) (cur avail : List Color) (picks : List Nat),
      cur.Nodup → avail.Nodup → (∀ c ∈ avail, ¬ c ∈ cur) →
      (∀ c : Color, c ∈ cur ∨ c ∈ avail) → cur.length ≤ 4 → 4 ≤ cur.length + fuel →
      (topUp cur avail picks fuel).Nodup ∧ (topUp cur avail picks fuel).length = 4 ∧
        ∀ c ∈ cur, c ∈ topUp cur avail picks fuel := by
  intro fuel
  induction fuel with
  | zero =>
    intro cur avail picks h1 _ _ _ h5 h6
    have hz : topUp cur avail picks 0 = cur := rfl
    rw [hz]
    exact ⟨h1, by omega, fun c hc => hc⟩
  | succ fuel ih =>
    intro cur avail picks h1 h2 h3 h4 h5 h6
    simp only [topUp]
    by_cases hlen : cur.length < 4
    · rw [if_pos hlen]
      cases avail with
      | nil =>
        exfalso
        have hsub : COLOR_NAMES ⊆ cur := by
          intro c hc
          rcases h4 c with h | h
          · exact h
          · simp at h
        have hle := (COLOR_NAMES_nodup.subperm hsub).length_le
        rw [COLOR_NAMES_length] at hle
        omega
      | cons c0 cs =>
        have hpos : 0 < (c0 :: cs).length := by simp
        have hidx : picks.headD 0 % (c0 :: cs).length < (c0 :: cs).length :=
          Nat.mod_lt _ hpos
        set pick := (c0 :: cs).getD (picks.headD 0 % (c0 :: cs).length) Color.indigo
          with hpick
        have hpickmem : pick ∈ c0 :: cs := by
          rw [hpick, List.getD_eq_getElem _ _ hidx]
          exact List.getElem_mem _
        have hnotcur : ¬ pick ∈ cur := h3 pick hpickmem
        have h1' : (cur ++ [pick]).Nodup := by
          rw [List.nodup_append]
          exact ⟨h1, List.nodup_singleton _, by simpa using hnotcur⟩
        have h2' : ((c0 :: cs).erase pick).Nodup := h2.erase _
        have h3' : ∀ c ∈ (c0 :: cs).erase pick, ¬ c ∈ cur ++ [pick] := by
          intro c hc
          obtain ⟨hne, hcav⟩ := (h2.mem_erase_iff).mp hc
          simp only [List.mem_append, List.mem_singleton]
          push_neg
          exact ⟨h3 c hcav, hne⟩
        have h4' : ∀ c : Color, c ∈ cur ++ [pick] ∨ c ∈ (c0 :: cs).erase pick := by
          intro c
          rcases h4 c with h | h
          · exact Or.inl (List.mem_append_left _ h)
          · by_cases hcp : c = pick
            · exact Or.inl (List.mem_append_right _ (by simp [hcp]))
            · exact Or.inr ((List.mem_erase_of_ne hcp).mpr h)
        have h5' : (cur ++ [pick]).length ≤ 4 := by
          simp only [List.length_append, List.length_singleton]
          omega
        have h6' : 4 ≤ (cur ++ [pick]).length + fuel := by
          simp only [List.length_append, List.length_singleton]
          omega
        obtain ⟨ha, hb, hc⟩ := ih (cur ++ [pick]) ((c0 :: cs).erase pick) picks.tail
          h1' h2' h3' h4' h5' h6'
        exact ⟨ha, hb, fun c hcc => hc c (List.mem_append_left _ hcc)⟩
    · rw [if_neg hlen]
      exact ⟨h1, by omega, fun c hc => hc⟩

lemma agentColors_spec (agents : List Nat) (shuffled : List Color)
    (picks : Nat → List Nat) (aid : Nat) (hnd : agents.Nodup)
    (hsh : shuffled.Perm COLOR_NAMES) (hn2 : 2 ≤ agents.length)
    (hn8 : agents.length ≤ 8) :
    (agentColors agents shuffled picks aid).Nodup ∧
      (agentColors agents shuffled picks aid).length = 4 ∧
      ∀ c ∈ firstPass agents shuffled aid, c ∈ agentColors agents shuffled picks aid := by
  have hshnd : shuffled.Nodup := hsh.nodup_iff.mpr COLOR_NAMES_nodup
  have hlen8 : shuffled.length = 8 := by rw [hsh.length_eq, COLOR_NAMES_length]
  have hcur_nd := firstPass_nodup agents shuffled aid hshnd
  have hcur_le := firstPass_length_le agents shuffled aid hnd hlen8 hn2 hn8
  unfold agentColors
  apply topUp_spec 4 _ _ _ hcur_nd
  · exact COLOR_NAMES_nodup.filter _
  · intro c hc
    have := (List.mem_filter.mp hc).2
    simpa using this
  · intro c
    by_cases hin : c ∈ firstPass agents shuffled aid
    · exact Or.inl hin
    · refine Or.inr (List.mem_filter.mpr ⟨mem_COLOR_NAMES c, by simpa using hin⟩)
  · exact hcur_le
  · omega

lemma le_mul_ceilDiv (a b : Nat) (hb : 0 < b) : a ≤ b * ceilDiv a b := by
  unfold ceilDiv
  have hdm := Nat.div_add_mod (a + b - 1) b
  have hmod : (a + b - 1) % b < b := Nat.mod_lt _ hb
  omega

lemma sum_q_blocks (q : Nat) :
    ∀ (l : List Nat) (f : Nat → List Color), (∀ a ∈ l, (f a).length = 4) →
      ((l.flatMap (fun aid => (f aid).map (fun c => (aid, c, q)))).map
        (fun t => t.2.2)).sum = l.length * (4 * q) := by
  intro l
  induction l with
  | nil => intro f _; simp
  | cons a rest ih =>
    intro f hf
    rw [List.flatMap_cons, List.map_append, List.sum_append,
      ih f (fun b hb => hf b (List.mem_cons_of_mem _ hb))]
    have hhead : (((f a).map (fun c => (a, c, q))).map (fun t => t.2.2)).sum = 4 * q := by
      rw [List.map_map]
      have hconst : ((f a).map ((fun t : Nat × Color × Nat => t.2.2) ∘ (fun c => (a, c, q)))) =
          (f a).map (fun _ => q) := rfl
      rw [hconst, List.map_const', List.sum_replicate, hf a (List.mem_cons_self _ _),
        smul_eq_mul]
    rw [hhead, List.length_cons]
    ring

lemma distribute_paint_eq (agents : List Nat) (N : Nat) (shuffled : List Color)
    (picks : Nat → List Nat) :
    distribute_paint agents N shuffled picks =
      agents.flatMap (fun aid => (agentColors agents shuffled picks aid).map
        (fun c => (aid, c, ceilDiv (N ^ 2) (agents.length * 4)))) := rfl

/-- C9: for every agent list of 2–8 distinct ids, every grid size, every
shuffle of the palette and every sequence of random picks,
`distribute_paint` gives each listed agent exactly 4 distinct colors —
each issued at quantity `ceil(N² / (K·4))` — covers all 8 palette colors
across the agents, and issues at least N² total units of paint. -/
theorem C9_paint_allocation (N K : Nat) (agents : List Nat) (shuffled : List Color)
    (picks : Nat → List Nat) (h2 : agents.length = K) (h3 : 2 ≤ K) (h4 : K ≤ 8)
    (h5 : agents.Nodup) (hsh : shuffled.Perm COLOR_NAMES) :
    (∀ t ∈ distribute_paint agents N shuffled picks, t.2.2 = ceilDiv (N ^ 2) (K * 4)) ∧
    (∀ aid ∈ agents, ∃ cs : List Color, cs.Nodup ∧ cs.length = 4 ∧
      ∀ c : Color, ((aid, c, ceilDiv (N ^ 2) (K * 4)) ∈
        distribute_paint agents N shuffled picks ↔ c ∈ cs)) ∧
    (∀ c : Color, ∃ aid ∈ agents, (aid, c, ceilDiv (N ^ 2) (K * 4)) ∈
      distribute_paint agents N shuffled picks) ∧
    N ^ 2 ≤ ((distribute_paint agents N shuffled picks).map (fun t => t.2.2)).sum := by
  subst h2
  have hspec := fun aid => agentColors_spec agents shuffled picks aid h5 hsh h3 h4
  refine ⟨?_, ?_, ?_, ?_⟩
  · intro t ht
    rw [distribute_paint_eq] at ht
    obtain ⟨aid, _, ht⟩ := List.mem_flatMap.mp ht
    obtain ⟨c, _, rfl⟩ := List.mem_map.mp ht
    rfl
  · intro aid haid
    refine ⟨agentColors agents shuffled picks aid, (hspec aid).1, (hspec aid).2.1, ?_⟩
    intro c
    constructor
    · intro hmem
      rw [distribute_paint_eq] at hmem
      obtain ⟨aid', _, hmem⟩ := List.mem_flatMap.mp hmem
      obtain ⟨c', hc', heq⟩ := List.mem_map.mp hmem
      have h1 : aid' = aid := congrArg Prod.fst heq
      have h2 : c' = c := congrArg (fun t : Nat × Color × Nat => t.2.1) heq
      rw [h1, h2] at hc'
      exact hc'
    · intro hc
      rw [distribute_paint_eq]
      exact List.mem_flatMap.mpr ⟨aid, haid, List.mem_map.mpr ⟨c, hc, rfl⟩⟩
  · intro c
    have hc : c ∈ shuffled := hsh.mem_iff.mpr (mem_COLOR_NAMES c)
    obtain ⟨aid, haid, hfp⟩ := firstPass_cover agents shuffled (by omega) c hc
    refine ⟨aid, haid, ?_⟩
    rw [distribute_paint_eq]
    exact List.mem_flatMap.mpr
      ⟨aid, haid, List.mem_map.mpr ⟨c, (hspec aid).2.2 c hfp, rfl⟩⟩
  · rw [distribute_paint_eq,
      sum_q_blocks _ agents _ (fun a ha => (hspec a).2.1)]
    have hpos : 0 < agents.length * 4 := by omega
    have h := le_mul_ceilDiv (N ^ 2) (agents.length * 4) hpos
    calc N ^ 2 ≤ (agents.length * 4) * ceilDiv (N ^ 2) (agents.length * 4) := h
      _ = agents.length * (4 * ceilDiv (N ^ 2) (agents.length * 4)) := by ring

/-- C9 (witness): the allocation theorem applied at N = 2, agents
[1, 2], the identity shuffle and empty pick streams. -/
theorem C9_witness :
    (∃ cs : List Color, cs.Nodup ∧ cs.length = 4 ∧ ∀ c : Color,
      ((1, c, ceilDiv (2 ^ 2) (2 * 4)) ∈
        distribute_paint [1, 2] 2 COLOR_NAMES (fun _ => []) ↔ c ∈ cs)) ∧
    (∃ aid ∈ [1, 2], (aid, Color.cream, ceilDiv (2 ^ 2) (2 * 4)) ∈
      distribute_paint [1, 2] 2 COLOR_NAMES (fun _ => [])) ∧
    (2 : Nat) ^ 2 ≤
      ((distribute_paint [1, 2] 2 COLOR_NAMES (fun _ => [])).map (fun t => t.2.2)).sum := by
  have h := C9_paint_allocation 2 2 [1, 2] COLOR_NAMES (fun _ => []) rfl
    (by decide) (by decide) (by decide) (List.Perm.refl _)
  exact ⟨h.2.1 1 (by decide), h.2.2.1 Color.cream, h.2.2.2⟩

end AiCity
